import Mathlib

/-!
# MeetBot: dual-stream transcript merger

A shallow embedding of the transcript-building code of the MeetBot browser
extension (`src/services/transcriptionService.js`,
`src/services/systemAudioService.js`, `src/services/geminiApiService.js`,
`src/services/storageService.js`, `src/side-panel/sidePanel.js`) and theorems
about it.

Conventions of the embedding

* A JavaScript string is a list of characters (`Str`).  The operations used by
  the code (`trim`, `split('\n')`, `join('\n')`, `startsWith('[')`, template
  literals) act alike on code units and on code points.
* `new Date().toLocaleTimeString()` is an input: every operation that reads the
  clock receives the time strings it will read.
* A speech-recognition engine is an external object; whether its `start()` or
  `stop()` raises is recorded in the `Engine` value held by the service.
* An operation that may throw after having mutated `this` returns the mutated
  state together with a `Completion`.
* `async` functions are run to completion in one step: the interleavings at
  their `await` points are not modelled.
* `setTimeout` calls are recorded as pending timers; a timer expires as a
  separate step, at which its callback runs on the state of that moment.
-/

namespace MeetBot

/-! ## Strings -/

/-- JavaScript strings, as lists of characters. -/
abbrev Str := List Char

/-- Truthiness of a JavaScript string: every string but the empty one. -/
def truthy (s : Str) : Bool := !s.isEmpty

/-- The characters removed by `String.prototype.trim`: ECMAScript WhiteSpace
(TAB, VT, FF, ZWNBSP and the space separators) and LineTerminator
(LF, CR, LS, PS). -/
def isWhiteSpace (c : Char) : Bool :=
  c = '\t' || c = '\n' || c.toNat = 0x0B || c.toNat = 0x0C || c = '\r' || c = ' ' ||
  c.toNat = 0xA0 || c.toNat = 0x1680 || (0x2000 ≤ c.toNat && c.toNat ≤ 0x200A) ||
  c.toNat = 0x2028 || c.toNat = 0x2029 || c.toNat = 0x202F || c.toNat = 0x205F ||
  c.toNat = 0x3000 || c.toNat = 0xFEFF

/-- Leading white space removed. -/
def trimStart (s : Str) : Str := s.dropWhile isWhiteSpace

/-- Trailing white space removed. -/
def trimEnd (s : Str) : Str := (s.reverse.dropWhile isWhiteSpace).reverse

/-- The method `String.prototype.trim`. -/
def trim (s : Str) : Str := trimEnd (trimStart s)

/-- The call `s.split('\n')`. -/
def split (s : Str) : List Str := s.splitOn '\n'

/-- The call `lines.join('\n')`. -/
def join (lines : List Str) : Str := ['\n'].intercalate lines

/-- The call `line.startsWith('[')`. -/
def startsWithBracket : Str → Bool
  | c :: _ => c = '['
  | [] => false

/-- The predicate `line => line.trim()` given to `filter`: the trimmed line is
a truthy string. -/
def nonBlank (line : Str) : Bool := truthy (trim line)

/-! ## Engines, errors, completions -/

/-- A `webkitSpeechRecognition` object, seen from the service: how its
`start()` and `stop()` respond. -/
structure Engine where
  startRaises : Bool
  stopRaises : Bool
deriving DecidableEq, Repr

/-- The exceptions that occur in the modelled code. -/
inductive JsError
  /-- The error `new Error('Microphone permission required')`. -/
  | microphonePermissionRequired
  /-- An exception raised by an engine's `start()`. -/
  | engineStart
  /-- An exception raised by an engine's `stop()`. -/
  | engineStop
  /-- A `TypeError` from calling a method on `null`. -/
  | typeError
  /-- The rejection of `getCaptureStream` (tab capture failed or no stream). -/
  | captureFailed
  /-- An exception while building the audio graph. -/
  | audioProcessing
  /-- The error `new Error('Speech recognition not supported')`. -/
  | unsupported
  /-- The error `new Error('Gemini API key not set')`. -/
  | apiKeyNotSet
  /-- The rejection of `chrome.storage.local.set`. -/
  | storageWrite
  /-- The rejection of `chrome.downloads.download` during the export. -/
  | exportFailed
deriving DecidableEq, Repr

/-- How a call ends: it returns a value or throws. -/
inductive Completion (α : Type) where
  | returned (value : α)
  | threw (error : JsError)
deriving DecidableEq, Repr

/-- The call `engine.stop()` guarded by `if (engine)`. -/
def guardedStop : Option Engine → Completion Unit
  | none => .returned ()
  | some e => if e.stopRaises then .threw .engineStop else .returned ()

/-- The unguarded call `engine.start()`. -/
def engineStart : Option Engine → Completion Unit
  | none => .threw .typeError
  | some e => if e.startRaises then .threw .engineStart else .returned ()

/-! ## Recognition results -/

/-- One entry of `event.results`: the transcript of its first alternative
(`results[i][0].transcript`) and its `isFinal` flag. -/
structure SpeechResult where
  transcript : Str
  isFinal : Bool
deriving DecidableEq, Repr

/-- A `SpeechRecognitionEvent`: the cumulative result list and the lowest index
that changed. -/
structure ResultEvent where
  resultIndex : Nat
  results : List SpeechResult
deriving DecidableEq, Repr

/-- A call of the fragment callback `onTranscriptUpdate(final, interim)`. -/
structure Update where
  finalTranscript : Str
  interimTranscript : Str
deriving DecidableEq, Repr

/-! ## TranscriptionService (`transcriptionService.js`) -/

/-- The fields of `TranscriptionService`.  `onTranscriptUpdate` records whether
a callback is installed; `audioContext` and `audioStream` are never read or
written after the constructor and are left out. -/
structure TranscriptionService where
  recognition : Option Engine
  systemRecognition : Option Engine
  isRecording : Bool
  isSystemAudioActive : Bool
  transcript : Str
  onTranscriptUpdate : Bool
deriving DecidableEq, Repr

/-- The state built by the constructor around a fresh engine. -/
def TranscriptionService.new (engine : Engine) : TranscriptionService :=
  { recognition := some engine, systemRecognition := none, isRecording := false,
    isSystemAudioActive := false, transcript := [], onTranscriptUpdate := false }

/-- The method `setTranscriptUpdateCallback`. -/
def TranscriptionService.setTranscriptUpdateCallback (s : TranscriptionService) :
    TranscriptionService :=
  { s with onTranscriptUpdate := true }

/-- The method `requestPermissions`: `true` when both the permission message
and `getUserMedia` succeed, `false` when either throws. -/
def requestPermissions (messageOk micGranted : Bool) : Bool :=
  if messageOk then (if micGranted then true else false) else false

/-- The local variables of the `onresult` loop together with the transcript
buffer it appends to. -/
structure ResultLoop where
  buffer : Str
  interimTranscript : Str
  finalTranscript : Str
deriving DecidableEq, Repr

/-- One iteration of the microphone `onresult` loop at index `i`; `clock i` is
the time string read while result `i` is handled. -/
def micResultStep (clock : Nat → Str) (acc : ResultLoop) (i : Nat) (r : SpeechResult) :
    ResultLoop :=
  let transcript := trim r.transcript
  if r.isFinal then
    { acc with
      finalTranscript := transcript
      buffer := acc.buffer ++ ('[' :: clock i ++ "] [Me] ".toList ++ transcript ++ ['\n']) }
  else
    { acc with interimTranscript := transcript }

/-- The microphone `onresult` loop over the results from index `i` on. -/
def micResultLoop (clock : Nat → Str) : Nat → List SpeechResult → ResultLoop → ResultLoop
  | _, [], acc => acc
  | i, r :: rs, acc => micResultLoop clock (i + 1) rs (micResultStep clock acc i r)

/-- The handler `recognition.onresult` installed by `configureRecognition`:
the new state and the callback call it makes, if a callback is installed. -/
def TranscriptionService.onresult (clock : Nat → Str) (s : TranscriptionService)
    (event : ResultEvent) : TranscriptionService × Option Update :=
  let acc := micResultLoop clock event.resultIndex (event.results.drop event.resultIndex)
    { buffer := s.transcript, interimTranscript := [], finalTranscript := [] }
  ({ s with transcript := acc.buffer },
   if s.onTranscriptUpdate then
     some
       { finalTranscript :=
           if truthy acc.finalTranscript then "[Me] ".toList ++ acc.finalTranscript else []
         interimTranscript :=
           if truthy acc.interimTranscript then "[Me] ".toList ++ acc.interimTranscript else [] }
   else none)

/-- The method `handleSystemAudioTranscript`; `timestamp` is the time string
read on entry. -/
def TranscriptionService.handleSystemAudioTranscript (timestamp : Str)
    (s : TranscriptionService) (finalTranscript interimTranscript : Str) :
    TranscriptionService × Option Update :=
  let s1 :=
    if truthy finalTranscript then
      let formattedTranscript := '[' :: timestamp ++ "] [System Audio] ".toList ++ finalTranscript
      { s with transcript := s.transcript ++ (formattedTranscript ++ ['\n']) }
    else s
  (s1,
   if s.onTranscriptUpdate then
     some
       { finalTranscript :=
           if truthy finalTranscript then "[System Audio] ".toList ++ finalTranscript else []
         interimTranscript :=
           if truthy interimTranscript then "[System Audio] ".toList ++ interimTranscript
           else [] }
   else none)

/-- The method `startRecording`.  `hasPermission` is the value of
`requestPermissions()`.  The `stop()` of the existing engine is wrapped in
`try`/`catch`, so its outcome is ignored; the assignments made before
`recognition.start()` stay in place when that call throws, because the
`catch` block only logs and rethrows. -/
def TranscriptionService.startRecording (hasPermission : Bool) (s : TranscriptionService) :
    TranscriptionService × Completion Bool :=
  if !hasPermission then
    (s, .threw .microphonePermissionRequired)
  else
    let s1 := { s with isRecording := true, transcript := [] }
    match engineStart s1.recognition with
    | .threw e => (s1, .threw e)
    | .returned () => (s1, .returned true)

/-- The sentinel returned for an empty transcript. -/
def warningSentinel : Str :=
  "[WARNING] Transcript may be incomplete. Please try recording again.".toList

/-- The `map` callback of `stopRecording` applied to the kept lines from
position `k` on; `clock k` is the time string read while line `k` is mapped. -/
def restamp (clock : Nat → Str) : Nat → List Str → List Str
  | _, [] => []
  | k, line :: rest =>
    (if !startsWithBracket line then '[' :: clock k ++ "] ".toList ++ line else line) ::
      restamp clock (k + 1) rest

/-- The transcript computed by `stopRecording` from the buffer (the part of
the method after the engines are stopped). -/
def finalizeTranscript (clock : Nat → Str) (buffer : Str) : Str :=
  let finalTranscript := trim buffer
  let formattedTranscript := join (restamp clock 0 ((split finalTranscript).filter nonBlank))
  if !truthy (trim formattedTranscript) then warningSentinel else formattedTranscript

/-- The method `stopRecording`.  The two `stop()` calls are not wrapped in
`try`/`catch`: an exception from either leaves the method after the flags have
been cleared. -/
def TranscriptionService.stopRecording (clock : Nat → Str) (s : TranscriptionService) :
    TranscriptionService × Completion Str :=
  let s1 := { s with isRecording := false, isSystemAudioActive := false }
  match guardedStop s1.recognition with
  | .threw e => (s1, .threw e)
  | .returned () =>
    match guardedStop s1.systemRecognition with
    | .threw e => (s1, .threw e)
    | .returned () => (s1, .returned (finalizeTranscript clock s1.transcript))

/-! ## SystemAudioService (`systemAudioService.js`) -/

/-- The two closures the code passes to `SystemAudioService.startCapture`. -/
inductive FragmentCallback
  /-- The closure of `SidePanelController.startRecording` (sidePanel.js, line 81):
  it forwards non-empty fragments to `updateTranscriptDisplay` under the label
  `[Meeting Member(s)]`. -/
  | display
  /-- The closure of `TranscriptionService.setupSystemAudio`
  (transcriptionService.js, line 161): it calls `handleSystemAudioTranscript`. -/
  | merger
deriving DecidableEq, Repr

/-- A captured media stream: the identifiers of its tracks. -/
structure MediaStream where
  tracks : List Nat
deriving DecidableEq, Repr

/-- The fields of `SystemAudioService`; `audioContext` records whether the
field holds a context. -/
structure SystemAudioService where
  isCapturing : Bool
  stream : Option MediaStream
  audioContext : Bool
  recognition : Option Engine
  onTranscriptUpdate : Option FragmentCallback
deriving DecidableEq, Repr

/-- The state built by the constructor. -/
def SystemAudioService.new : SystemAudioService :=
  { isCapturing := false, stream := none, audioContext := false, recognition := none,
    onTranscriptUpdate := none }

/-- How `initializeAudioProcessing` ends. -/
inductive AudioGraph
  /-- The graph is built and the destination stream returned. -/
  | built
  /-- The call `new AudioContext()` throws: the field is not assigned. -/
  | contextFails
  /-- A later call throws: the field already holds the new context. -/
  | wiringFails
deriving DecidableEq, Repr

/-- What the platform answers during one `startCapture`. -/
structure CaptureEnv where
  /-- The stream handed to the `chrome.tabCapture.capture` callback; `none`
  when `lastError` is set or no stream is returned. -/
  tabStream : Option MediaStream
  audioGraph : AudioGraph
  /-- Whether `'webkitSpeechRecognition' in window`. -/
  speechSupported : Bool
  /-- The object built by `new webkitSpeechRecognition()`. -/
  engine : Engine
deriving DecidableEq, Repr

/-- The method `stopCapture`: the new state, the tracks it stopped and the
Boolean it returns.  An exception from `recognition.stop()` is caught at the
end of the method, after which nothing else has been done. -/
def SystemAudioService.stopCapture (a : SystemAudioService) :
    SystemAudioService × List Nat × Bool :=
  match guardedStop a.recognition with
  | .threw _ => (a, [], false)
  | .returned () =>
    let stopped := match a.stream with
      | some st => st.tracks
      | none => []
    ({ a with recognition := none, stream := none, audioContext := false,
              isCapturing := false, onTranscriptUpdate := none },
     stopped, true)

/-- The `catch` block of `startCapture`: `cleanup()` and rethrow. -/
def SystemAudioService.failCapture (a : SystemAudioService) (e : JsError) :
    SystemAudioService × List Nat × Completion (Option Bool) :=
  let r := a.stopCapture
  (r.1, r.2.1, .threw e)

/-- The method `startCapture` (with `getCaptureStream`,
`initializeAudioProcessing` and `setupSpeechRecognition` inlined): the new
state, the tracks stopped by a cleanup, and the completion (`undefined` when
already capturing, else `true`). -/
def SystemAudioService.startCapture (env : CaptureEnv) (a : SystemAudioService)
    (onTranscriptUpdate : Option FragmentCallback) :
    SystemAudioService × List Nat × Completion (Option Bool) :=
  if a.isCapturing then (a, [], .returned none)
  else
    let a1 := { a with onTranscriptUpdate := onTranscriptUpdate }
    match env.tabStream with
    | none => a1.failCapture .captureFailed
    | some st =>
      let a2 := { a1 with stream := some st }
      match env.audioGraph with
      | .contextFails => a2.failCapture .audioProcessing
      | .wiringFails => ({ a2 with audioContext := true }).failCapture .audioProcessing
      | .built =>
        let a3 := { a2 with audioContext := true }
        if !env.speechSupported then a3.failCapture .unsupported
        else
          let a4 := { a3 with recognition := some env.engine }
          match engineStart a4.recognition with
          | .threw e => a4.failCapture e
          | .returned () => ({ a4 with isCapturing := true }, [], .returned (some true))

/-- One iteration of the system-audio `onresult` loop on the pair
`(interimTranscript, finalTranscript)`. -/
def sysResultStep (acc : Str × Str) (r : SpeechResult) : Str × Str :=
  if r.isFinal then (acc.1, "[System Audio] ".toList ++ r.transcript)
  else (r.transcript, acc.2)

/-- The handler `recognition.onresult` of `setupSpeechRecognition`: the
callback it calls, if one is installed, and the fragments it passes. -/
def SystemAudioService.onresult (a : SystemAudioService) (event : ResultEvent) :
    Option (FragmentCallback × Update) :=
  let acc := (event.results.drop event.resultIndex).foldl sysResultStep ([], [])
  match a.onTranscriptUpdate with
  | none => none
  | some cb => some (cb, { finalTranscript := acc.2, interimTranscript := acc.1 })

/-- The wiring made by `setupSystemAudio`: a result event of its
`SystemAudioService` reaches `handleSystemAudioTranscript` through the
`merger` closure. -/
def TranscriptionService.onSystemAudioResult (timestamp : Str) (s : TranscriptionService)
    (a : SystemAudioService) (event : ResultEvent) : TranscriptionService × Option Update :=
  match a.onresult event with
  | some (.merger, u) =>
    s.handleSystemAudioTranscript timestamp u.finalTranscript u.interimTranscript
  | _ => (s, none)

/-! ## SidePanelController (`sidePanel.js`) -/

/-- A child of the transcript area. -/
inductive DisplayLine
  /-- An element of class `interim-line`. -/
  | interimLine (timestamp text : Str)
  /-- An element of class `final-line`. -/
  | finalLine (timestamp text : Str)
deriving DecidableEq, Repr

/-- Whether the element has class `interim-line`. -/
def DisplayLine.isInterim : DisplayLine → Bool
  | .interimLine _ _ => true
  | .finalLine _ _ => false

/-- The text of a final line, as read by the duplicate check. -/
def DisplayLine.finalText : DisplayLine → Option Str
  | .interimLine _ _ => none
  | .finalLine _ text => some text

/-- Sets the text of the first interim line. -/
def setFirstInterim (text : Str) : List DisplayLine → List DisplayLine
  | [] => []
  | .interimLine ts _ :: rest => .interimLine ts text :: rest
  | .finalLine ts t :: rest => .finalLine ts t :: setFirstInterim text rest

/-- Removes the first interim line. -/
def removeFirstInterim : List DisplayLine → List DisplayLine
  | [] => []
  | .interimLine _ _ :: rest => rest
  | .finalLine ts t :: rest => .finalLine ts t :: removeFirstInterim rest

/-- The method `updateTranscriptDisplay`; `interimNow` and `finalNow` are the
time strings read when an interim line, respectively a final line, is made. -/
def updateTranscriptDisplay (interimNow finalNow : Str) (area : List DisplayLine)
    (finalTranscript interimTranscript : Str) : List DisplayLine :=
  let area1 :=
    if truthy interimTranscript then
      let withLine := if area.any DisplayLine.isInterim then area
        else area ++ [.interimLine interimNow []]
      setFirstInterim interimTranscript withLine
    else removeFirstInterim area
  if truthy finalTranscript && truthy (trim finalTranscript) then
    let isDuplicate := area1.any (fun line => line.finalText = some (trim finalTranscript))
    if !isDuplicate then area1 ++ [.finalLine finalNow (trim finalTranscript)] else area1
  else area1

/-- The fields of `SidePanelController` that the recording flow reads or
writes, with the two services it owns.  `systemStatusActive` is the class
`active` of the system-status element, `alerts` the messages shown with
`alert`; the record button, the status text and the timer are left out. -/
structure SidePanelController where
  isRecording : Bool
  isSystemAudioActive : Bool
  systemStatusActive : Bool
  transcriptArea : List DisplayLine
  alerts : List Str
  transcriptionService : TranscriptionService
  systemAudioService : SystemAudioService
deriving DecidableEq, Repr

/-- The controller after its constructor and `setupEventListeners`, which
installs the display callback on the transcription service. -/
def SidePanelController.new (engine : Engine) : SidePanelController :=
  { isRecording := false, isSystemAudioActive := false, systemStatusActive := false,
    transcriptArea := [], alerts := [],
    transcriptionService := (TranscriptionService.new engine).setTranscriptUpdateCallback,
    systemAudioService := SystemAudioService.new }

/-- The callback installed on the transcription service by
`setupEventListeners`: it forwards to `updateTranscriptDisplay`. -/
def SidePanelController.showUpdate (interimNow finalNow : Str) (c : SidePanelController) :
    Option Update → SidePanelController
  | none => c
  | some u =>
    let area := updateTranscriptDisplay interimNow finalNow c.transcriptArea
      u.finalTranscript u.interimTranscript
    { c with transcriptArea := area }

/-- The closure passed to `systemAudioService.startCapture` by
`SidePanelController.startRecording`. -/
def SidePanelController.displayCallback (interimNow finalNow : Str) (c : SidePanelController)
    (u : Update) : SidePanelController :=
  if truthy u.finalTranscript || truthy u.interimTranscript then
    let area := updateTranscriptDisplay interimNow finalNow c.transcriptArea
      (if truthy u.finalTranscript then "[Meeting Member(s)] ".toList ++ u.finalTranscript
       else [])
      (if truthy u.interimTranscript then "[Meeting Member(s)] ".toList ++ u.interimTranscript
       else [])
    { c with transcriptArea := area }
  else c

/-- The method `SidePanelController.startRecording`. -/
def SidePanelController.startRecording (hasPermission : Bool) (env : CaptureEnv)
    (c : SidePanelController) : SidePanelController :=
  match c.transcriptionService.startRecording hasPermission with
  | (ts, .threw _) =>
    { c with transcriptionService := ts
             alerts := c.alerts ++ ["Failed to start recording. Please try again.".toList] }
  | (ts, .returned _) =>
    match c.systemAudioService.startCapture env (some .display) with
    | (sa, _, .returned _) =>
      { c with transcriptionService := ts, systemAudioService := sa,
               isSystemAudioActive := true, systemStatusActive := true, isRecording := true }
    | (sa, _, .threw _) =>
      { c with transcriptionService := ts, systemAudioService := sa,
               isSystemAudioActive := false, systemStatusActive := false, isRecording := true }

/-- A microphone result event in the running extension: the service handler,
then the display callback. -/
def SidePanelController.onMicResult (clock : Nat → Str) (interimNow finalNow : Str)
    (c : SidePanelController) (event : ResultEvent) : SidePanelController :=
  let r := c.transcriptionService.onresult clock event
  ({ c with transcriptionService := r.1 }).showUpdate interimNow finalNow r.2

/-- A result event of the controller's system-audio service in the running
extension: the service handler, then the callback it holds. -/
def SidePanelController.onSystemAudioResult (timestamp interimNow finalNow : Str)
    (c : SidePanelController) (event : ResultEvent) : SidePanelController :=
  match c.systemAudioService.onresult event with
  | none => c
  | some (.display, u) => c.displayCallback interimNow finalNow u
  | some (.merger, u) =>
    let r := c.transcriptionService.handleSystemAudioTranscript timestamp
      u.finalTranscript u.interimTranscript
    ({ c with transcriptionService := r.1 }).showUpdate interimNow finalNow r.2

/-- The first part of `SidePanelController.stopRecording`, up to the point
where the name prompt is awaited: the new state and the value of the local
`transcript`. -/
def SidePanelController.stopRecording (clock : Nat → Str) (c : SidePanelController) :
    SidePanelController × Completion Str :=
  let c1 := { c with systemAudioService := c.systemAudioService.stopCapture.1,
                     isSystemAudioActive := false, systemStatusActive := false }
  match c1.transcriptionService.stopRecording clock with
  | (ts, .threw e) => ({ c1 with transcriptionService := ts }, .threw e)
  | (ts, .returned transcript) =>
    ({ c1 with transcriptionService := ts, transcriptArea := [], isRecording := false },
     .returned transcript)

/-- The record built by `SidePanelController.saveMeeting`. -/
structure MeetingData where
  id : Str
  name : Str
  timestamp : Str
  summary : Str
  fullTranscript : Str
deriving DecidableEq, Repr

/-- The object literal `meetingData` of `saveMeeting`; `id` and `timestamp`
are the two clock readings. -/
def meetingDataOf (id timestamp meetingName transcript summary : Str) : MeetingData :=
  { id := id, name := meetingName, timestamp := timestamp, summary := summary,
    fullTranscript := transcript }

/-! ## Fragments of the data model and their delivery -/

/-- The two sources of fragments. -/
inductive Source
  | self
  | systemAudio
deriving DecidableEq, Repr

/-- A `TranscriptFragment` of the data model (its wall-clock time is supplied
at delivery). -/
structure TranscriptFragment where
  source : Source
  text : Str
  isFinal : Bool
deriving DecidableEq, Repr

/-- Delivery of one fragment to the service at clock reading `timestamp`: a
microphone fragment arrives as a result event holding that one result, a
system-audio fragment as a call of `handleSystemAudioTranscript` with the text
in the final or the interim argument. -/
def deliver (timestamp : Str) (s : TranscriptionService) (f : TranscriptFragment) :
    TranscriptionService :=
  match f.source with
  | .self =>
    (s.onresult (fun _ => timestamp)
      { resultIndex := 0, results := [{ transcript := f.text, isFinal := f.isFinal }] }).1
  | .systemAudio =>
    (s.handleSystemAudioTranscript timestamp
      (if f.isFinal then f.text else []) (if f.isFinal then [] else f.text)).1

/-- Delivery of a sequence of fragments, the `n`-th at clock reading
`clock n`. -/
def deliverAll (clock : Nat → Str) : Nat → TranscriptionService → List TranscriptFragment →
    TranscriptionService
  | _, s, [] => s
  | n, s, f :: fs => deliverAll clock (n + 1) (deliver (clock n) s f) fs

/-! ## Restart handlers and timers -/

/-- The three recognition sessions the code creates. -/
inductive SessionRef
  /-- The engine `TranscriptionService.recognition`. -/
  | microphone
  /-- The engine `TranscriptionService.systemRecognition`. -/
  | system
  /-- The engine `SystemAudioService.recognition`. -/
  | capture
deriving DecidableEq, Repr

/-- The callbacks the restart paths hand to `setTimeout`. -/
inductive RestartCallback
  /-- The callback of the microphone `onerror` and `onend` handlers
  (transcriptionService.js, lines 37 and 73):
  `try { this.recognition.start() } catch (error) { console.warn(..) }`. -/
  | micRestart
  /-- The callback of the system `onend` handler (transcriptionService.js,
  line 188): `try { recognition.start() } catch (error) { console.error(..) }`. -/
  | systemEndRestart
  /-- The callback of `restartSystemRecognition` (transcriptionService.js, line
  219): `this.systemRecognition.start()`, with no `try` inside the callback. -/
  | systemRestart
  /-- The callback of `SystemAudioService.restartRecognition`
  (systemAudioService.js, line 119): `this.recognition.start()`, with no `try`
  inside the callback. -/
  | captureRestart
deriving DecidableEq, Repr

/-- A call `setTimeout(callback, delayMs)`. -/
structure Timer where
  delayMs : Nat
  callback : RestartCallback
deriving DecidableEq, Repr

/-- The error code `'no-speech'`. -/
def noSpeech : Str := "no-speech".toList

/-- The handler `recognition.onerror` of `configureRecognition`: the timers it
sets for an event with error code `error`. -/
def TranscriptionService.onerror (s : TranscriptionService) (_error : Str) : List Timer :=
  if s.isRecording then [{ delayMs := 300, callback := .micRestart }] else []

/-- The handler `recognition.onend` of `configureRecognition`. -/
def TranscriptionService.onend (s : TranscriptionService) : List Timer :=
  if s.isRecording then [{ delayMs := 100, callback := .micRestart }] else []

/-- The method `restartSystemRecognition`: `stop()` and `setTimeout` sit in one
`try` block, so an exception from `stop()` is logged and no timer is set. -/
def TranscriptionService.restartSystemRecognition (s : TranscriptionService) : List Timer :=
  match s.systemRecognition with
  | none => []
  | some e =>
    if s.isSystemAudioActive then
      (if e.stopRaises then [] else [{ delayMs := 1000, callback := .systemRestart }])
    else []

/-- The handler `recognition.onerror` of `configureSystemRecognition`. -/
def TranscriptionService.systemOnerror (s : TranscriptionService) (error : Str) : List Timer :=
  if error = noSpeech && s.isSystemAudioActive then s.restartSystemRecognition else []

/-- The handler `recognition.onend` of `configureSystemRecognition`. -/
def TranscriptionService.systemOnend (s : TranscriptionService) : List Timer :=
  if s.isSystemAudioActive then [{ delayMs := 100, callback := .systemEndRestart }] else []

/-- The method `SystemAudioService.restartRecognition`: `stop()` and
`setTimeout` sit in one `try` block. -/
def SystemAudioService.restartRecognition (a : SystemAudioService) : List Timer :=
  match a.recognition with
  | none => []
  | some e => if e.stopRaises then [] else [{ delayMs := 1000, callback := .captureRestart }]

/-- The handler `recognition.onerror` of `setupSpeechRecognition`. -/
def SystemAudioService.onerror (a : SystemAudioService) (error : Str) : List Timer :=
  if error = noSpeech then a.restartRecognition else []

/-- The effect of an `end` event on the engine of `SystemAudioService`:
`setupSpeechRecognition` assigns `onresult` and `onerror` only, so no code runs
and no timer is set. -/
def SystemAudioService.onend (_a : SystemAudioService) : List Timer := []

/-- The method `SystemAudioService.recoverFromError`: the new state, the tracks
stopped on the way, and the completion.  The argument of `startCapture` is the
field `onTranscriptUpdate` as it is read after `stopCapture` has run; an
exception from `startCapture` is caught and logged. -/
def SystemAudioService.recoverFromError (env : CaptureEnv) (a : SystemAudioService) :
    SystemAudioService × List Nat × Completion Unit :=
  if a.isCapturing then
    let r1 := a.stopCapture
    let r2 := r1.1.startCapture env r1.1.onTranscriptUpdate
    (r2.1, r1.2.1 ++ r2.2.1, .returned ())
  else (a, [], .returned ())

/-- The two services of a recording with the timers that are pending and the
`start()` calls that timer callbacks have issued so far. -/
structure Recording where
  service : TranscriptionService
  capture : SystemAudioService
  pending : List Timer
  issued : List SessionRef
deriving DecidableEq, Repr

/-- A restart callback run by the timer: the new state and what leaves the
callback.  A `start()` call is recorded in `issued` whether or not it raises;
a `null` reference raises a `TypeError` before any call is made. -/
def RestartCallback.run (w : Recording) : RestartCallback → Recording × Completion Unit
  | .micRestart =>
    match w.service.recognition with
    | none => (w, .returned ())
    | some _ => ({ w with issued := w.issued ++ [.microphone] }, .returned ())
  | .systemEndRestart =>
    match w.service.systemRecognition with
    | none => (w, .returned ())
    | some _ => ({ w with issued := w.issued ++ [.system] }, .returned ())
  | .systemRestart =>
    match w.service.systemRecognition with
    | none => (w, .threw .typeError)
    | some e =>
      ({ w with issued := w.issued ++ [.system] },
       if e.startRaises then .threw .engineStart else .returned ())
  | .captureRestart =>
    match w.capture.recognition with
    | none => (w, .threw .typeError)
    | some e =>
      ({ w with issued := w.issued ++ [.capture] },
       if e.startRaises then .threw .engineStart else .returned ())

/-- The `k`-th pending timer expires: it leaves the pending list and its
callback runs.  Nothing happens when there is no such timer. -/
def Recording.fire (w : Recording) (k : Nat) : Recording × Completion Unit :=
  match w.pending.get? k with
  | none => (w, .returned ())
  | some t => t.callback.run { w with pending := w.pending.eraseIdx k }

/-- What can happen during a recording, `startRecording` apart. -/
inductive Operation
  /-- A result event of the microphone engine. -/
  | micResult (clock : Nat → Str) (event : ResultEvent)
  /-- An error event of the microphone engine. -/
  | micError (error : Str)
  /-- An end event of the microphone engine. -/
  | micEnd
  /-- A result event of the engine of `SystemAudioService`. -/
  | captureResult (timestamp : Str) (event : ResultEvent)
  /-- An error event of the engine of `SystemAudioService`. -/
  | captureError (error : Str)
  /-- An end event of the engine of `SystemAudioService`. -/
  | captureEnd
  /-- An error event of `TranscriptionService.systemRecognition`. -/
  | systemError (error : Str)
  /-- An end event of `TranscriptionService.systemRecognition`. -/
  | systemEnd
  /-- A call of `handleSystemAudioTranscript`. -/
  | handleSystemAudioTranscript (timestamp finalTranscript interimTranscript : Str)
  /-- A call of `restartSystemRecognition`. -/
  | restartSystemRecognition
  /-- A call of `SystemAudioService.recoverFromError`. -/
  | recoverFromError (env : CaptureEnv)
  /-- A call of `SystemAudioService.stopCapture`. -/
  | stopCapture
  /-- The expiry of the `k`-th pending timer. -/
  | fire (k : Nat)
  /-- A call of `TranscriptionService.stopRecording`. -/
  | stopRecording (clock : Nat → Str)

/-- One operation on a recording.  Neither `stopRecording` nor `stopCapture`
clears a timer: the code never calls `clearTimeout`. -/
def Recording.step (w : Recording) : Operation → Recording
  | .micResult clock event => { w with service := (w.service.onresult clock event).1 }
  | .micError error => { w with pending := w.pending ++ w.service.onerror error }
  | .micEnd => { w with pending := w.pending ++ w.service.onend }
  | .captureResult timestamp event =>
    { w with service := (w.service.onSystemAudioResult timestamp w.capture event).1 }
  | .captureError error => { w with pending := w.pending ++ w.capture.onerror error }
  | .captureEnd => { w with pending := w.pending ++ w.capture.onend }
  | .systemError error => { w with pending := w.pending ++ w.service.systemOnerror error }
  | .systemEnd => { w with pending := w.pending ++ w.service.systemOnend }
  | .handleSystemAudioTranscript timestamp finalTranscript interimTranscript =>
    { w with service :=
        (w.service.handleSystemAudioTranscript timestamp finalTranscript interimTranscript).1 }
  | .restartSystemRecognition =>
    { w with pending := w.pending ++ w.service.restartSystemRecognition }
  | .recoverFromError env => { w with capture := (w.capture.recoverFromError env).1 }
  | .stopCapture => { w with capture := w.capture.stopCapture.1 }
  | .fire k => (w.fire k).1
  | .stopRecording clock => { w with service := (w.service.stopRecording clock).1 }

/-- A sequence of operations. -/
def Recording.run (w : Recording) (ops : List Operation) : Recording :=
  ops.foldl Recording.step w

/-! ## Events in the running extension -/

/-- A result event reaching the controller's services. -/
inductive ControllerEvent
  /-- A result event of the microphone engine. -/
  | micResult (clock : Nat → Str) (interimNow finalNow : Str) (event : ResultEvent)
  /-- A result event of the engine of the controller's `SystemAudioService`. -/
  | systemAudioResult (timestamp interimNow finalNow : Str) (event : ResultEvent)

/-- One event handled by the controller's services. -/
def SidePanelController.handle (c : SidePanelController) : ControllerEvent → SidePanelController
  | .micResult clock interimNow finalNow event => c.onMicResult clock interimNow finalNow event
  | .systemAudioResult timestamp interimNow finalNow event =>
    c.onSystemAudioResult timestamp interimNow finalNow event

/-- A sequence of events handled in order. -/
def SidePanelController.handleAll (c : SidePanelController) (events : List ControllerEvent) :
    SidePanelController :=
  events.foldl SidePanelController.handle c

/-! ## GeminiApiService (`geminiApiService.js`) -/

/-- An entry of `content.parts`: its `text`, when present. -/
structure Part where
  text : Option Str
deriving DecidableEq, Repr

/-- The `content` of a candidate: its `parts`, when present. -/
structure Content where
  parts : Option (List Part)
deriving DecidableEq, Repr

/-- An entry of `data.candidates`: its `content`, when present. -/
structure Candidate where
  content : Option Content
deriving DecidableEq, Repr

/-- The parsed response body: its `candidates`, when present. -/
structure ResponseData where
  candidates : Option (List Candidate)
deriving DecidableEq, Repr

/-- How the request made by `generateSummary` ends. -/
inductive FetchOutcome
  /-- The call `fetch` rejects (network error). -/
  | rejected
  /-- The response arrives with `ok` false. -/
  | notOk
  /-- The call `response.json()` rejects. -/
  | unreadable
  /-- The response is OK and parses to `data`. -/
  | body (data : ResponseData)
deriving DecidableEq, Repr

/-- The record returned by `generateSummary`. -/
structure SummaryData where
  summary : Str
  fullTranscript : Str
  timestamp : Str
deriving DecidableEq, Repr

/-- The summary of the fallback record. -/
def summaryFailed : Str := "Summary generation failed. Full transcript is preserved.".toList

/-- The reading of `summary` from the parsed body inside the `try` block:
`none` when an exception is thrown there (the format check fails, or
`parts[0]` is `undefined`), else the value of
`summary || 'No summary generated'`. -/
def readSummary (data : ResponseData) : Option Str :=
  match data.candidates with
  | none => none
  | some [] => none
  | some (candidate :: _) =>
    match candidate.content with
    | none => none
    | some content =>
      match content.parts with
      | none => none
      | some [] => none
      | some (part :: _) =>
        match part.text with
        | none => some "No summary generated".toList
        | some text => some (if truthy text then text else "No summary generated".toList)

/-- The method `generateSummary`.  `apiKey` is the field `API_KEY` (a constant
of the extension, `none` when undefined), `now` the ISO time string read when
the record is built.  The key check stands before the `try` block. -/
def generateSummary (apiKey : Option Str) (outcome : FetchOutcome) (now transcript : Str) :
    Completion SummaryData :=
  if !(match apiKey with
       | none => false
       | some key => truthy key) then .threw .apiKeyNotSet
  else
    match outcome with
    | .body data =>
      match readSummary data with
      | some summary =>
        .returned { summary := summary, fullTranscript := transcript, timestamp := now }
      | none =>
        .returned { summary := summaryFailed, fullTranscript := transcript, timestamp := now }
    | _ => .returned { summary := summaryFailed, fullTranscript := transcript, timestamp := now }

/-! ## StorageService (`storageService.js`) and the save flow -/

/-- What the platform answers during one `StorageService.saveMeeting`. -/
structure SaveEnv where
  /-- Whether `chrome.storage.local.get` resolves. -/
  readOk : Bool
  /-- Whether `chrome.storage.local.set` resolves. -/
  writeOk : Bool
  /-- Whether `chrome.downloads.download`, called by `exportMeeting`, resolves. -/
  downloadOk : Bool
deriving DecidableEq, Repr

/-- The method `getSavedMeetings`; `stored` is the list kept under the storage
key (empty when the key is absent).  A failing read is caught and answered with
the empty list. -/
def StorageService.getSavedMeetings (readOk : Bool) (stored : List MeetingData) :
    List MeetingData :=
  if readOk then stored else []

/-- The method `StorageService.saveMeeting`: the stored list afterwards and the
completion.  The record is written before the export is attempted; an exception
from the export is rethrown with the record already in the store. -/
def StorageService.saveMeeting (env : SaveEnv) (stored : List MeetingData)
    (meetingData : MeetingData) : List MeetingData × Completion Bool :=
  let existingMeetings := StorageService.getSavedMeetings env.readOk stored
  let updated := existingMeetings ++ [meetingData]
  if !env.writeOk then (stored, .threw .storageWrite)
  else if !env.downloadOk then (updated, .threw .exportFailed)
  else (updated, .returned true)

/-- One call of `SidePanelController.saveMeeting`: the two clock readings used
for `id` and `timestamp`, and the platform's answers. -/
structure SaveCall where
  id : Str
  timestamp : Str
  env : SaveEnv
deriving DecidableEq, Repr

/-- The method `SidePanelController.saveMeeting`: it builds the record and
hands it to `StorageService.saveMeeting`; the refresh of the list by
`loadSavedMeetings` catches its own errors, and an exception from the storage
service is rethrown. -/
def SidePanelController.saveMeeting (call : SaveCall) (stored : List MeetingData)
    (meetingName transcript : Str) (summaryData : SummaryData) :
    List MeetingData × Completion Bool :=
  StorageService.saveMeeting call.env stored
    (meetingDataOf call.id call.timestamp meetingName transcript summaryData.summary)

/-- The `catch` branch of the inner `try` of `SidePanelController.stopRecording`:
a save with the default summary; an exception from it reaches the outer `catch`,
which shows an alert.  The result is the stored list and the alerts shown. -/
def SidePanelController.saveFallback (fallback : SaveCall) (fallbackNow : Str)
    (stored : List MeetingData) (meetingName transcript : Str) :
    List MeetingData × List Str :=
  match SidePanelController.saveMeeting fallback stored meetingName transcript
      { summary := summaryFailed, fullTranscript := transcript, timestamp := fallbackNow } with
  | (stored1, .returned _) => (stored1, [])
  | (stored1, .threw _) => (stored1, ["Failed to save meeting. Please try again.".toList])

/-- The second part of `SidePanelController.stopRecording`, from the name prompt
on.  `meetingName` is the value the prompt resolves with, `summary` the
completion of `generateSummary(transcript)`, `first` the call of `saveMeeting`
in the `try` block and `fallback` the one in its `catch` branch.  The result is
the stored list and the alerts shown. -/
def SidePanelController.saveRecording (summary : Completion SummaryData)
    (first fallback : SaveCall) (fallbackNow : Str) (stored : List MeetingData)
    (meetingName transcript : Str) : List MeetingData × List Str :=
  if !truthy meetingName then (stored, [])
  else
    match summary with
    | .threw _ =>
      SidePanelController.saveFallback fallback fallbackNow stored meetingName transcript
    | .returned summaryData =>
      match SidePanelController.saveMeeting first stored meetingName transcript summaryData with
      | (stored1, .returned _) => (stored1, [])
      | (stored1, .threw _) =>
        SidePanelController.saveFallback fallback fallbackNow stored1 meetingName transcript

/-- A call of `updateTranscriptDisplay`: the two clock readings and the two
arguments. -/
structure DisplayCall where
  interimNow : Str
  finalNow : Str
  finalTranscript : Str
  interimTranscript : Str
deriving DecidableEq, Repr

/-- A sequence of `updateTranscriptDisplay` calls on a transcript area. -/
def updateAll (area : List DisplayLine) (calls : List DisplayCall) : List DisplayLine :=
  calls.foldl
    (fun a call =>
      updateTranscriptDisplay call.interimNow call.finalNow a call.finalTranscript
        call.interimTranscript)
    area

/-! ## Definitions used to state the theorems -/

/-- The line the format prescribes for a microphone final with recognised
text `t` handled at time `ts`, newline included. -/
def micLine (ts t : Str) : Str := '[' :: ts ++ "] [Me] ".toList ++ trim t ++ ['\n']

/-- The lines a microphone result event is expected to append: one per final
result among those the event reports (from `resultIndex` on), in their order,
each stamped with the time read while it is handled. -/
def expectedMicLines (clock : Nat → Str) (event : ResultEvent) : List Str :=
  ((List.enumFrom event.resultIndex (event.results.drop event.resultIndex)).filter
    (fun p => p.2.isFinal)).map (fun p => micLine (clock p.1) p.2.transcript)

/-- The text one delivered fragment adds to the transcript when no duplicate
is suppressed: nothing for an interim fragment or an empty system-audio text,
else its formatted line and a newline. -/
def fragmentLine (ts : Str) (f : TranscriptFragment) : Str :=
  if f.isFinal then
    match f.source with
    | .self => micLine ts f.text
    | .systemAudio =>
      if truthy f.text then '[' :: ts ++ "] [System Audio] ".toList ++ f.text ++ ['\n'] else []
  else []

/-- The text a sequence of fragments adds, the `n`-th stamped `clock n`. -/
def fragmentLines (clock : Nat → Str) (n : Nat) (fs : List TranscriptFragment) : Str :=
  ((List.enumFrom n fs).map (fun p => fragmentLine (clock p.1) p.2)).flatten

/-- The clock of the worked example: reading `n` is `12:00:0(n+1)`. -/
def exampleClock (n : Nat) : Str := "12:00:0".toList ++ (Nat.repr (n + 1)).toList

/-- An engine whose calls succeed. -/
def quietEngine : Engine := { startRaises := false, stopRaises := false }

/-- The fragments Self `hello`, Self `hello`, System `world`, all final. -/
def helloHelloWorld : List TranscriptFragment :=
  [{ source := .self, text := "hello".toList, isFinal := true },
   { source := .self, text := "hello".toList, isFinal := true },
   { source := .systemAudio, text := "world".toList, isFinal := true }]

/-- The service after a successful `startRecording` on a fresh instance. -/
def recordingService : TranscriptionService :=
  ((TranscriptionService.new quietEngine).startRecording true).1

/-- Both `stop()` calls of `stopRecording` complete on this state. -/
def stopsQuietly (s : TranscriptionService) : Prop :=
  guardedStop s.recognition = .returned () ∧ guardedStop s.systemRecognition = .returned ()

/-- The lines `stopRecording` keeps: the non-blank lines of the trimmed
buffer. -/
def keptLines (buffer : Str) : List Str := (split (trim buffer)).filter nonBlank

/-- The rule for one kept line at position `k`: unchanged when it begins with
`[`, else prefixed with the time read for it. -/
def stampRule (clock : Nat → Str) (k : Nat) (line : Str) : Str :=
  if startsWithBracket line then line else '[' :: clock k ++ "] ".toList ++ line

/-- A line carries a timestamp prefix when it reads `[<time>] <rest>`: it opens
with `[` and the closing `] ` occurs in it. -/
def carriesTimestamp (line : Str) : Prop :=
  ∃ time rest : Str, line = '[' :: time ++ "] ".toList ++ rest

/-- Every line of the text is empty or begins with `[`. -/
def Stamped (s : Str) : Prop := ∀ l ∈ split s, l = [] ∨ startsWithBracket l = true

/-- A clock that always reads the given time string. -/
def fixedClock (ts : String) : Nat → Str := fun _ => ts.toList

/-- A final microphone fragment whose recognised text spans two lines. -/
def twoLineFragment : TranscriptFragment :=
  { source := .self, text := "a\nb".toList, isFinal := true }

/-- A final microphone fragment whose second line opens with a bracket. -/
def bracketLineFragment : TranscriptFragment :=
  { source := .self, text := "a\n[b".toList, isFinal := true }

/-- A recording service whose microphone engine raises on `stop()`. -/
def stuckEngineService : TranscriptionService :=
  { recordingService with recognition := some { startRaises := false, stopRaises := true } }

/-- An idle service holding an earlier transcript, whose engine raises on
`start()`. -/
def idleServiceWithFailingEngine : TranscriptionService :=
  { TranscriptionService.new { startRaises := true, stopRaises := false } with
    transcript := "[11:00:00] [Me] earlier".toList }

/-- A platform on which tab capture and speech recognition work. -/
def workingCapture : CaptureEnv :=
  { tabStream := some { tracks := [0] }, audioGraph := .built, speechSupported := true,
    engine := quietEngine }

/-- A result event carrying the single final result `world`. -/
def worldFinalEvent : ResultEvent :=
  { resultIndex := 0, results := [{ transcript := "world".toList, isFinal := true }] }

/-- A result event carrying the single interim result `wor`. -/
def interimEvent : ResultEvent :=
  { resultIndex := 0, results := [{ transcript := "wor".toList, isFinal := false }] }

/-- The controller after a `startRecording` in which microphone and tab capture
both succeed. -/
def startedController : SidePanelController :=
  (SidePanelController.new quietEngine).startRecording true workingCapture

/-- A recording service whose buffer holds a stamped line, a blank line and a
line without a stamp. -/
def mixedBufferService : TranscriptionService :=
  { recordingService with transcript := "  [12:00:01] [Me] hi\n \nloose line\n".toList }

/-- A recording service whose buffer holds white space only. -/
def blankBufferService : TranscriptionService :=
  { recordingService with transcript := " \n\t \n".toList }

/-- The text the microphone events of a sequence are expected to add to the
transcript: the `[Me]` lines of their final results, in order; system-audio
events add nothing. -/
def micLinesOf : List ControllerEvent → Str
  | [] => []
  | .micResult clock _ _ event :: rest =>
    (expectedMicLines clock event).flatten ++ micLinesOf rest
  | .systemAudioResult _ _ _ _ :: rest => micLinesOf rest

/-- A platform on which tab capture is refused. -/
def refusedCapture : CaptureEnv := { workingCapture with tabStream := none }

/-- A platform whose new engine raises on `start()` and on `stop()`. -/
def brokenEngineCapture : CaptureEnv :=
  { workingCapture with engine := { startRaises := true, stopRaises := true } }

/-- A system-audio service after a successful `startCapture` with the display
callback. -/
def capturingService : SystemAudioService :=
  (SystemAudioService.new.startCapture workingCapture (some .display)).1

/-- A capturing system-audio service whose engine raises on `stop()`. -/
def stuckCaptureService : SystemAudioService :=
  { capturingService with recognition := some { startRaises := false, stopRaises := true } }

/-- A recording service with an active system recognition session. -/
def systemActiveService : TranscriptionService :=
  { recordingService with systemRecognition := some quietEngine, isSystemAudioActive := true }

/-- A recording service whose active system engine raises on `start()`. -/
def failingSystemService : TranscriptionService :=
  { recordingService with
    systemRecognition := some { startRaises := true, stopRaises := false }
    isSystemAudioActive := true }

/-- A recording in progress with no timer pending. -/
def freshRecording : Recording :=
  { service := recordingService, capture := capturingService, pending := [], issued := [] }

/-- A microphone result event carrying the single final result `hello`. -/
def helloFinalEvent : ResultEvent :=
  { resultIndex := 0, results := [{ transcript := "hello".toList, isFinal := true }] }

/-- The first part of the first candidate of a response body, when the body
has one. -/
def firstPart (data : ResponseData) : Option Part :=
  match data.candidates with
  | none => none
  | some candidates =>
    match candidates.head? with
    | none => none
    | some candidate =>
      match candidate.content with
      | none => none
      | some content =>
        match content.parts with
        | none => none
        | some parts => parts.head?

/-- The ways summarisation fails once the key is set: network error, non-OK
response, unreadable body, or a body without a first part. -/
def FetchOutcome.failed : FetchOutcome → Bool
  | .body data => (firstPart data).isNone
  | _ => true

/-- The event carries no line break: none in the time strings read while a
microphone event is handled, none in its recognised texts. -/
def lineBreakFree : ControllerEvent → Prop
  | .micResult clock _ _ event =>
    (∀ i, '\n' ∉ clock i) ∧ ∀ r ∈ event.results, '\n' ∉ r.transcript
  | .systemAudioResult _ _ _ _ => True

/-- The `[Me]` lines of the microphone finals of a sequence of events, without
their newlines. -/
def meBodies : List ControllerEvent → List Str
  | [] => []
  | .micResult clock _ _ event :: rest =>
    ((List.enumFrom event.resultIndex (event.results.drop event.resultIndex)).filter
      (fun p => p.2.isFinal)).map
        (fun p => '[' :: clock p.1 ++ "] [Me] ".toList ++ trim p.2.transcript) ++
      meBodies rest
  | .systemAudioResult _ _ _ _ :: rest => meBodies rest

/-- A microphone result event carrying the single final result `a` / `b`, a
text of two lines. -/
def twoLineEvent : ResultEvent :=
  { resultIndex := 0, results := [{ transcript := "a\nb".toList, isFinal := true }] }

/-- The controller after a `startRecording` in which the microphone starts and
tab capture is refused. -/
def micOnlyController : SidePanelController :=
  (SidePanelController.new quietEngine).startRecording true refusedCapture

/-- The controller after the same start when its microphone engine raises on
`stop()`. -/
def stuckMicOnlyController : SidePanelController :=
  (SidePanelController.new { startRaises := false, stopRaises := true }).startRecording true
    refusedCapture

/-- A capturing system-audio service without engine. -/
def engineLessCapture : SystemAudioService := { capturingService with recognition := none }

/-- A recording service with an active system session whose engine raises on
`stop()`. -/
def stuckSystemService : TranscriptionService :=
  { recordingService with
    systemRecognition := some { startRaises := false, stopRaises := true }
    isSystemAudioActive := true }

/-- The final lines of a transcript area, in display order. -/
def finalLines (area : List DisplayLine) : List DisplayLine :=
  area.filter (fun line => !line.isInterim)

/-- The texts of the final lines of a transcript area, in display order. -/
def finalTexts (area : List DisplayLine) : List Str :=
  (finalLines area).filterMap DisplayLine.finalText

/-- Whether a final fragment is due a new line: its trimmed text is not empty
and no displayed final line has that text. -/
def addsFinalLine (area : List DisplayLine) (finalTranscript : Str) : Bool :=
  truthy (trim finalTranscript) && decide (trim finalTranscript ∉ finalTexts area)

/-- The calls of the worked display example: final `hello`, interim `wor`,
final `hello` again with surrounding blanks, final `world`. -/
def displayCalls : List DisplayCall :=
  [{ interimNow := "12:00:01".toList, finalNow := "12:00:01".toList,
     finalTranscript := "[Me] hello".toList, interimTranscript := [] },
   { interimNow := "12:00:02".toList, finalNow := "12:00:02".toList,
     finalTranscript := [], interimTranscript := "[Me] wor".toList },
   { interimNow := "12:00:03".toList, finalNow := "12:00:03".toList,
     finalTranscript := " [Me] hello ".toList, interimTranscript := [] },
   { interimNow := "12:00:04".toList, finalNow := "12:00:04".toList,
     finalTranscript := "[Me] world".toList, interimTranscript := [] }]

/-- A platform on which reading and writing the store work and the download
fails. -/
def downloadFails : SaveEnv := { readOk := true, writeOk := true, downloadOk := false }

/-- A platform on which reading, writing and the download work. -/
def saveWorks : SaveEnv := { readOk := true, writeOk := true, downloadOk := true }

/-- A response body whose first part carries the summary `Greeting.`. -/
def greetingBody : ResponseData :=
  { candidates :=
      some [{ content := some { parts := some [{ text := some "Greeting.".toList }] } }] }

/-- The transcript saved in the worked example. -/
def helloTranscript : Str := "[12:00:01] [Me] hello".toList

/-- The completion of `generateSummary` in the worked example: a key is set and
the request succeeds. -/
def greetingSummary : Completion SummaryData :=
  generateSummary (some "key".toList) (.body greetingBody) "2026-01-01T10:00:00.000Z".toList
    helloTranscript

/-- The call of `saveMeeting` made in the `try` block of the worked example. -/
def firstSave : SaveCall :=
  { id := "1767261600000".toList, timestamp := "2026-01-01T10:00:00.000Z".toList,
    env := downloadFails }

/-- The call of `saveMeeting` made in the `catch` branch of the worked
example. -/
def fallbackSave : SaveCall :=
  { id := "1767261600050".toList, timestamp := "2026-01-01T10:00:00.050Z".toList,
    env := downloadFails }

/-- The call of `saveMeeting` made in the `catch` branch when the platform has
recovered by then. -/
def fallbackSaveWorking : SaveCall :=
  { id := "1767261600050".toList, timestamp := "2026-01-01T10:00:00.050Z".toList,
    env := saveWorks }

/-! ## Lemmas on strings -/

theorem split_nil : split [] = [[]] := rfl

theorem split_ne_nil (s : Str) : split s ≠ [] := by
  unfold split List.splitOn
  exact List.splitOnP_ne_nil _ _

theorem split_newline_cons (s : Str) : split ('\n' :: s) = [] :: split s := by
  simp [split, List.splitOn]

theorem split_cons_of_ne (c : Char) (s : Str) (h : c ≠ '\n') :
    split (c :: s) = (split s).modifyHead (List.cons c) := by
  simp [split, List.splitOn, h]

theorem split_line_append (l rest : Str) (h : '\n' ∉ l) :
    split (l ++ '\n' :: rest) = l :: split rest := by
  unfold split List.splitOn
  apply List.splitOnP_first
  · intro x hx hxe
    have : x = '\n' := by simpa using hxe
    exact h (this ▸ hx)
  · simp

theorem join_split (s : Str) : join (split s) = s := by
  unfold join split
  exact List.intercalate_splitOn s '\n'

theorem split_join (ls : List Str) (h : ∀ l ∈ ls, '\n' ∉ l) (hne : ls ≠ []) :
    split (join ls) = ls := by
  unfold join split
  exact List.splitOn_intercalate ls '\n' h hne

theorem newline_not_mem_of_mem_split (s : Str) : ∀ l ∈ split s, '\n' ∉ l := by
  induction s with
  | nil => intro l hl; simp [split_nil] at hl; simp [hl]
  | cons c s ih =>
    intro l hl
    by_cases hc : c = '\n'
    · subst hc
      rw [split_newline_cons] at hl
      rcases List.mem_cons.1 hl with h | h
      · simp [h]
      · exact ih l h
    · rw [split_cons_of_ne c s hc] at hl
      cases hs : split s with
      | nil => exact absurd hs (split_ne_nil s)
      | cons l0 ls =>
        rw [hs] at hl ih
        simp only [List.modifyHead] at hl
        rcases List.mem_cons.1 hl with h | h
        · subst h
          intro hmem
          rcases List.mem_cons.1 hmem with h1 | h1
          · exact hc h1.symm
          · exact ih l0 (List.mem_cons_self _ _) h1
        · exact ih l (List.mem_cons_of_mem _ h)

theorem mem_join (ls : List Str) (c : Char) (h : c ∈ join ls) :
    c = '\n' ∨ ∃ l ∈ ls, c ∈ l := by
  induction ls with
  | nil => simp [join, List.intercalate] at h
  | cons l ls ih =>
    cases ls with
    | nil =>
      right
      refine ⟨l, List.mem_cons_self _ _, ?_⟩
      simpa [join, List.intercalate] using h
    | cons l2 ls2 =>
      have h2 : c ∈ l ++ ('\n' :: join (l2 :: ls2)) := by
        simpa [join, List.intercalate, List.intersperse] using h
      rcases List.mem_append.1 h2 with h3 | h3
      · exact Or.inr ⟨l, List.mem_cons_self _ _, h3⟩
      · rcases List.mem_cons.1 h3 with h4 | h4
        · exact Or.inl h4
        · rcases ih h4 with h5 | ⟨l3, hl3, hc3⟩
          · exact Or.inl h5
          · exact Or.inr ⟨l3, List.mem_cons_of_mem _ hl3, hc3⟩

theorem trimStart_eq_nil_iff (s : Str) : trimStart s = [] ↔ ∀ c ∈ s, isWhiteSpace c = true := by
  unfold trimStart
  exact List.dropWhile_eq_nil_iff

theorem trimEnd_eq_nil_iff (s : Str) : trimEnd s = [] ↔ ∀ c ∈ s, isWhiteSpace c = true := by
  unfold trimEnd
  rw [List.reverse_eq_nil_iff, List.dropWhile_eq_nil_iff]
  simp

theorem trimEnd_initial (s : Str) : trimEnd s <+: s := by
  have : s.rdropWhile isWhiteSpace <+: s := List.rdropWhile_prefix isWhiteSpace s
  simpa [trimEnd, List.rdropWhile] using this

theorem trimStart_suffix (s : Str) : trimStart s <:+ s := List.dropWhile_suffix _

theorem trimStart_head_not_space (s : Str) (c : Char) (rest : Str)
    (h : trimStart s = c :: rest) : isWhiteSpace c = false := by
  unfold trimStart at h
  have := List.head_dropWhile_not isWhiteSpace s (by rw [h]; simp)
  simpa [h] using this

theorem trim_eq_nil_iff (s : Str) : trim s = [] ↔ ∀ c ∈ s, isWhiteSpace c = true := by
  unfold trim
  rw [trimEnd_eq_nil_iff]
  constructor
  · intro h
    rw [← trimStart_eq_nil_iff]
    cases hs : trimStart s with
    | nil => rfl
    | cons c rest =>
      have h1 := trimStart_head_not_space s c rest hs
      have h2 := h c (by rw [hs]; exact List.mem_cons_self _ _)
      rw [h1] at h2
      exact absurd h2 (by simp)
  · intro h c hc
    exact h c ((trimStart_suffix s).subset hc)

theorem nonBlank_iff (s : Str) : nonBlank s = true ↔ ∃ c ∈ s, isWhiteSpace c = false := by
  unfold nonBlank truthy
  have := trim_eq_nil_iff s
  constructor
  · intro h
    by_contra hne
    push_neg at hne
    have h2 : trim s = [] := this.2 (fun c hc => by simpa using hne c hc)
    simp [h2] at h
  · rintro ⟨c, hc, hw⟩
    cases ht : trim s with
    | nil =>
      have := this.1 ht c hc
      rw [hw] at this
      exact absurd this (by simp)
    | cons a b => simp

theorem nonBlank_of_startsWithBracket (s : Str) (h : startsWithBracket s = true) :
    nonBlank s = true := by
  cases s with
  | nil => simp [startsWithBracket] at h
  | cons c rest =>
    have hc : c = '[' := by simpa [startsWithBracket] using h
    subst hc
    exact (nonBlank_iff _).2 ⟨'[', List.mem_cons_self _ _, by decide⟩

theorem trim_nil : trim [] = [] := rfl

/-! ## Lemmas on `stopRecording` -/

theorem restamp_eq_map (clock : Nat → Str) (ls : List Str) :
    ∀ k, restamp clock k ls = (List.enumFrom k ls).map (fun p => stampRule clock p.1 p.2) := by
  induction ls with
  | nil => intro k; simp [restamp]
  | cons l ls ih =>
    intro k
    rw [restamp, ih]
    cases h : startsWithBracket l <;> simp [List.enumFrom, stampRule, h]

theorem restamp_of_bracket (clock : Nat → Str) (ls : List Str)
    (h : ∀ l ∈ ls, startsWithBracket l = true) : ∀ k, restamp clock k ls = ls := by
  induction ls with
  | nil => intro k; simp [restamp]
  | cons l ls ih =>
    intro k
    rw [restamp, ih (fun x hx => h x (List.mem_cons_of_mem _ hx))]
    simp [h l (List.mem_cons_self _ _)]

theorem stampRule_bracket (clock : Nat → Str) (k : Nat) (line : Str) :
    startsWithBracket (stampRule clock k line) = true := by
  unfold stampRule
  cases h : startsWithBracket line
  · simp [startsWithBracket]
  · simpa using h

theorem mem_restamp (clock : Nat → Str) (ls : List Str) :
    ∀ k l, l ∈ restamp clock k ls → ∃ j line, line ∈ ls ∧ l = stampRule clock j line := by
  induction ls with
  | nil => intro k l h; simp [restamp] at h
  | cons x xs ih =>
    intro k l h
    rw [restamp] at h
    rcases List.mem_cons.1 h with h1 | h1
    · refine ⟨k, x, List.mem_cons_self _ _, ?_⟩
      rw [h1]
      cases hb : startsWithBracket x <;> simp [stampRule, hb]
    · obtain ⟨j, line, hl, he⟩ := ih (k + 1) l h1
      exact ⟨j, line, List.mem_cons_of_mem _ hl, he⟩

theorem restamp_eq_nil (clock : Nat → Str) (k : Nat) (ls : List Str) :
    restamp clock k ls = [] ↔ ls = [] := by
  cases ls <;> simp [restamp]

theorem trim_join_ne_nil (ls : List Str) (hne : ls ≠ [])
    (h : ∀ l ∈ ls, startsWithBracket l = true) : trim (join ls) ≠ [] := by
  intro ht
  rw [trim_eq_nil_iff] at ht
  cases ls with
  | nil => exact hne rfl
  | cons l rest =>
    have hl := h l (List.mem_cons_self _ _)
    cases l with
    | nil => simp [startsWithBracket] at hl
    | cons c cs =>
      have hc : c = '[' := by simpa [startsWithBracket] using hl
      subst hc
      have hmem : '[' ∈ join (('[' :: cs) :: rest) := by
        cases rest <;> simp [join, List.intercalate, List.intersperse]
      have := ht '[' hmem
      exact absurd this (by decide)

theorem finalizeTranscript_of_kept_nil (clock : Nat → Str) (buffer : Str)
    (h : keptLines buffer = []) : finalizeTranscript clock buffer = warningSentinel := by
  unfold keptLines at h
  have hj : join ([] : List Str) = [] := rfl
  simp [finalizeTranscript, h, restamp, hj, trim_nil, truthy]

theorem finalizeTranscript_of_kept_ne_nil (clock : Nat → Str) (buffer : Str)
    (h : keptLines buffer ≠ []) :
    finalizeTranscript clock buffer = join (restamp clock 0 (keptLines buffer)) := by
  have hne : trim (join (restamp clock 0 (keptLines buffer))) ≠ [] := by
    apply trim_join_ne_nil
    · rw [Ne, restamp_eq_nil]; exact h
    · intro l hl
      obtain ⟨j, line, _, he⟩ := mem_restamp clock _ _ _ hl
      rw [he]; exact stampRule_bracket clock j line
  unfold keptLines at h hne ⊢
  unfold finalizeTranscript
  cases ht : trim (join (restamp clock 0 (List.filter nonBlank (split (trim buffer))))) with
  | nil => exact absurd ht hne
  | cons a b => simp [truthy, ht]

theorem finalizeTranscript_ne_nil (clock : Nat → Str) (buffer : Str) :
    finalizeTranscript clock buffer ≠ [] := by
  by_cases h : keptLines buffer = []
  · rw [finalizeTranscript_of_kept_nil clock buffer h]; decide
  · rw [finalizeTranscript_of_kept_ne_nil clock buffer h]
    intro hj
    have := trim_join_ne_nil (restamp clock 0 (keptLines buffer))
      (by rw [Ne, restamp_eq_nil]; exact h)
      (by
        intro l hl
        obtain ⟨j, line, _, he⟩ := mem_restamp clock _ _ _ hl
        rw [he]; exact stampRule_bracket clock j line)
    rw [hj] at this
    exact this trim_nil

theorem keptLines_of_blank (buffer : Str) (h : ∀ line ∈ split buffer, trim line = []) :
    keptLines buffer = [] := by
  have hall : ∀ c ∈ buffer, isWhiteSpace c = true := by
    intro c hc
    rw [← join_split buffer] at hc
    rcases mem_join _ _ hc with h1 | ⟨l, hl, hcl⟩
    · rw [h1]; decide
    · exact (trim_eq_nil_iff l).1 (h l hl) c hcl
  have ht : trim buffer = [] := (trim_eq_nil_iff buffer).2 hall
  unfold keptLines
  rw [ht, split_nil]
  decide

theorem stopRecording_of_quiet (clock : Nat → Str) (s : TranscriptionService)
    (h : stopsQuietly s) :
    s.stopRecording clock =
      ({ s with isRecording := false, isSystemAudioActive := false },
       .returned (finalizeTranscript clock s.transcript)) := by
  obtain ⟨h1, h2⟩ := h
  simp [TranscriptionService.stopRecording, h1, h2]

/-! ## Lemmas on stamped buffers -/

theorem split_cons_decompose (c : Char) (s : Str) (h : c ≠ '\n') :
    ∃ l ls, split s = l :: ls ∧ split (c :: s) = (c :: l) :: ls := by
  cases hs : split s with
  | nil => exact absurd hs (split_ne_nil s)
  | cons l ls =>
    refine ⟨l, ls, rfl, ?_⟩
    rw [split_cons_of_ne c s h, hs]
    rfl

theorem stamped_nil : Stamped [] := by
  intro l hl
  rw [split_nil] at hl
  left
  simpa using hl

theorem stamped_line_append (l rest : Str) (hn : '\n' ∉ l)
    (hl : l = [] ∨ startsWithBracket l = true) (hr : Stamped rest) :
    Stamped (l ++ '\n' :: rest) := by
  intro x hx
  rw [split_line_append l rest hn] at hx
  rcases List.mem_cons.1 hx with h | h
  · rw [h]; exact hl
  · exact hr x h

theorem stamped_initial_aux (x : Str) :
    ∀ y : Str,
      ((∀ l ∈ (split (x ++ y)).tail, l = [] ∨ startsWithBracket l = true) →
        ∀ l ∈ (split x).tail, l = [] ∨ startsWithBracket l = true) ∧
      (Stamped (x ++ y) → Stamped x) := by
  induction x with
  | nil =>
    intro y
    refine ⟨?_, fun _ => stamped_nil⟩
    intro _ l hl
    simp [split_nil] at hl
  | cons c x ih =>
    intro y
    by_cases hc : c = '\n'
    · subst hc
      have e1 : split ('\n' :: x ++ y) = [] :: split (x ++ y) := split_newline_cons (x ++ y)
      have e2 : split ('\n' :: x) = [] :: split x := split_newline_cons x
      constructor
      · intro h l hl
        rw [e2] at hl
        rw [e1] at h
        exact (ih y).2 h l hl
      · intro h l hl
        rw [e2] at hl
        rcases List.mem_cons.1 hl with h1 | h1
        · exact Or.inl h1
        · refine (ih y).2 ?_ l h1
          intro z hz
          exact h z (by rw [e1]; exact List.mem_cons_of_mem _ hz)
    · obtain ⟨l1, ls1, s1, e1⟩ := split_cons_decompose c (x ++ y) hc
      obtain ⟨l2, ls2, s2, e2⟩ := split_cons_decompose c x hc
      have e1' : split (c :: x ++ y) = (c :: l1) :: ls1 := e1
      have tailOk : (∀ l ∈ ls1, l = [] ∨ startsWithBracket l = true) →
          ∀ l ∈ ls2, l = [] ∨ startsWithBracket l = true := by
        intro h l hl
        have := (ih y).1 (by rw [s1]; exact h) l (by rw [s2]; exact hl)
        exact this
      constructor
      · intro h l hl
        rw [e2] at hl
        rw [e1'] at h
        exact tailOk h l hl
      · intro h l hl
        rw [e2] at hl
        rcases List.mem_cons.1 hl with h1 | h1
        · have hhead := h (c :: l1) (by rw [e1']; exact List.mem_cons_self _ _)
          rcases hhead with h2 | h2
          · exact absurd h2 (by simp)
          · right
            rw [h1]
            simpa [startsWithBracket] using h2
        · refine tailOk ?_ l h1
          intro z hz
          exact h z (by rw [e1']; exact List.mem_cons_of_mem _ hz)

theorem stamped_initial (x y : Str) (h : Stamped (x ++ y)) : Stamped x :=
  (stamped_initial_aux x y).2 h

theorem stamped_trimStart (s : Str) (h : Stamped s) : Stamped (trimStart s) := by
  induction s with
  | nil => exact stamped_nil
  | cons c s ih =>
    cases hw : isWhiteSpace c with
    | false =>
      have : trimStart (c :: s) = c :: s := by simp [trimStart, List.dropWhile, hw]
      rw [this]; exact h
    | true =>
      have e : trimStart (c :: s) = trimStart s := by simp [trimStart, List.dropWhile, hw]
      rw [e]
      apply ih
      by_cases hc : c = '\n'
      · subst hc
        intro l hl
        exact h l (by rw [split_newline_cons]; exact List.mem_cons_of_mem _ hl)
      · obtain ⟨l1, ls1, _, e1⟩ := split_cons_decompose c s hc
        have hhead := h (c :: l1) (by rw [e1]; exact List.mem_cons_self _ _)
        rcases hhead with h2 | h2
        · exact absurd h2 (by simp)
        · have hb : c = '[' := by simpa [startsWithBracket] using h2
          rw [hb] at hw
          exact absurd hw (by decide)

theorem stamped_trim (s : Str) (h : Stamped s) : Stamped (trim s) := by
  obtain ⟨y, hy⟩ := trimEnd_initial (trimStart s)
  have h1 := stamped_trimStart s h
  rw [← hy] at h1
  exact stamped_initial _ y h1

theorem keptLines_bracket (buffer : Str) (h : Stamped buffer) :
    ∀ l ∈ keptLines buffer, startsWithBracket l = true := by
  intro l hl
  unfold keptLines at hl
  obtain ⟨hmem, hnb⟩ := List.mem_filter.1 hl
  rcases stamped_trim buffer h l hmem with h1 | h1
  · rw [h1] at hnb
    exact absurd hnb (by decide)
  · exact h1

theorem finalizeTranscript_of_stamped (c1 c2 : Nat → Str) (buffer : Str) (h : Stamped buffer) :
    finalizeTranscript c1 buffer = finalizeTranscript c2 buffer := by
  by_cases hk : keptLines buffer = []
  · rw [finalizeTranscript_of_kept_nil c1 buffer hk, finalizeTranscript_of_kept_nil c2 buffer hk]
  · rw [finalizeTranscript_of_kept_ne_nil c1 buffer hk,
      finalizeTranscript_of_kept_ne_nil c2 buffer hk,
      restamp_of_bracket c1 _ (keptLines_bracket buffer h),
      restamp_of_bracket c2 _ (keptLines_bracket buffer h)]

theorem newline_not_mem_trim (t : Str) (h : '\n' ∉ t) : '\n' ∉ trim t := by
  intro hm
  apply h
  have h1 := (trimEnd_initial (trimStart t)).subset hm
  exact (trimStart_suffix t).subset h1

theorem stamped_fragmentLine_append (ts : Str) (f : TranscriptFragment) (rest : Str)
    (hts : '\n' ∉ ts) (hf : '\n' ∉ f.text) (hr : Stamped rest) :
    Stamped (fragmentLine ts f ++ rest) := by
  rcases f with ⟨src, text, fin⟩
  cases fin
  · simpa [fragmentLine] using hr
  · cases src
    · have e : fragmentLine ts ⟨.self, text, true⟩ ++ rest =
          ('[' :: ts ++ "] [Me] ".toList ++ trim text) ++ '\n' :: rest := by
        simp [fragmentLine, micLine]
      rw [e]
      apply stamped_line_append _ _ _ _ hr
      · have := newline_not_mem_trim text hf
        simp [hts, this]
      · right; simp [startsWithBracket]
    · cases ht : truthy text
      · simpa [fragmentLine, ht] using hr
      · have e : fragmentLine ts ⟨.systemAudio, text, true⟩ ++ rest =
            ('[' :: ts ++ "] [System Audio] ".toList ++ text) ++ '\n' :: rest := by
          simp [fragmentLine, ht]
        rw [e]
        apply stamped_line_append _ _ _ _ hr
        · have hf' : '\n' ∉ text := hf
          simp [hts, hf']
        · right; simp [startsWithBracket]

theorem stamped_fragmentLines (clock : Nat → Str) (fs : List TranscriptFragment)
    (hclock : ∀ n, '\n' ∉ clock n) (hfs : ∀ f ∈ fs, '\n' ∉ f.text) :
    ∀ n, Stamped (fragmentLines clock n fs) := by
  induction fs with
  | nil => intro n; simpa [fragmentLines] using stamped_nil
  | cons f fs ih =>
    intro n
    have e : fragmentLines clock n (f :: fs) =
        fragmentLine (clock n) f ++ fragmentLines clock (n + 1) fs := by
      simp [fragmentLines, List.enumFrom]
    rw [e]
    exact stamped_fragmentLine_append _ _ _ (hclock n) (hfs f (List.mem_cons_self _ _))
      (ih (fun g hg => hfs g (List.mem_cons_of_mem _ hg)) (n + 1))

/-! ## Lemmas on fragment delivery -/

theorem micResultLoop_buffer (clock : Nat → Str) (rs : List SpeechResult) :
    ∀ (i : Nat) (acc : ResultLoop),
      (micResultLoop clock i rs acc).buffer =
        acc.buffer ++ (((List.enumFrom i rs).filter (fun p => p.2.isFinal)).map
          (fun p => micLine (clock p.1) p.2.transcript)).flatten := by
  induction rs with
  | nil => intro i acc; simp [micResultLoop]
  | cons r rs ih =>
    intro i acc
    rw [micResultLoop, ih]
    cases hr : r.isFinal <;> simp [micResultStep, hr, List.enumFrom, List.filter, micLine]

theorem deliver_eq (ts : Str) (s : TranscriptionService) (f : TranscriptFragment) :
    deliver ts s f = { s with transcript := s.transcript ++ fragmentLine ts f } := by
  rcases f with ⟨src, text, fin⟩
  cases src <;> cases fin <;>
    simp [deliver, fragmentLine, TranscriptionService.onresult, micResultLoop, micResultStep,
      TranscriptionService.handleSystemAudioTranscript, micLine, truthy]
  cases text <;> simp

theorem deliverAll_eq (clock : Nat → Str) (fs : List TranscriptFragment) :
    ∀ (n : Nat) (s : TranscriptionService),
      deliverAll clock n s fs =
        { s with transcript := s.transcript ++ fragmentLines clock n fs } := by
  induction fs with
  | nil => intro n s; simp [deliverAll, fragmentLines]
  | cons f fs ih =>
    intro n s
    rw [deliverAll, ih, deliver_eq]
    simp [fragmentLines, List.enumFrom]

theorem sysResult_foldl_interim (rs : List SpeechResult)
    (h : ∀ r ∈ rs, r.isFinal = false) :
    ∀ acc : Str × Str, (rs.foldl sysResultStep acc).2 = acc.2 := by
  induction rs with
  | nil => intro acc; rfl
  | cons r rs ih =>
    intro acc
    rw [List.foldl_cons, ih (fun x hx => h x (List.mem_cons_of_mem _ hx))]
    simp [sysResultStep, h r (List.mem_cons_self _ _)]

theorem onSystemAudioResult_display (ts interimNow finalNow : Str) (c : SidePanelController)
    (event : ResultEvent) (h : c.systemAudioService.onTranscriptUpdate = some .display) :
    (c.onSystemAudioResult ts interimNow finalNow event).transcriptionService =
      c.transcriptionService := by
  unfold SidePanelController.onSystemAudioResult SystemAudioService.onresult
  simp only [h]
  unfold SidePanelController.displayCallback
  split <;> rfl

/-! ## The claims -/

/-- C1 (as stated, refuted).  The finals Self `hello`, Self `hello`, System
`world`, delivered during one recording, leave three lines in the text returned
by `stopRecording`, two of them with the text `hello`: nothing is suppressed. -/
theorem C1_duplicate_final_recorded_twice :
    ((deliverAll exampleClock 0 recordingService helloHelloWorld).stopRecording
        exampleClock).2 =
      .returned
        "[12:00:01] [Me] hello\n[12:00:02] [Me] hello\n[12:00:03] [System Audio] world".toList
    ∧ (split
        "[12:00:01] [Me] hello\n[12:00:02] [Me] hello\n[12:00:03] [System Audio] world".toList
      ).length = 3 := by
  decide

/-- C1 (amended).  For every sequence of fragments delivered to the service,
the transcript grows by exactly one formatted line per final fragment (a
system-audio final with empty text excepted), in delivery order, whether or not
a line with the same text is already recorded; the finals Self `hello`, Self
`hello`, System `world` yield exactly 3 lines from `stopRecording`. -/
theorem C1_every_final_fragment_appends_a_line (clock : Nat → Str) (n : Nat)
    (s : TranscriptionService) (fs : List TranscriptFragment) :
    (deliverAll clock n s fs).transcript = s.transcript ++ fragmentLines clock n fs ∧
    ∃ out,
      ((deliverAll exampleClock 0 recordingService helloHelloWorld).stopRecording
        exampleClock).2 = .returned out ∧ (split out).length = 3 := by
  refine ⟨by rw [deliverAll_eq], ?_⟩
  exact ⟨"[12:00:01] [Me] hello\n[12:00:02] [Me] hello\n[12:00:03] [System Audio] world".toList,
    by decide, by decide⟩

/-- C2 (code defect).  In the controller's recording flow a final system-audio
result `world` reaches only the display: the transcription service's
transcript stays empty, `stopRecording` returns the sentinel, and the returned
text, which is saved as `fullTranscript`, holds no `[System Audio]` line. -/
theorem C2_system_audio_final_missing_from_saved_transcript :
    startedController.isRecording = true ∧
    startedController.isSystemAudioActive = true ∧
    (startedController.onSystemAudioResult "12:00:02".toList "12:00:02".toList
        "12:00:02".toList worldFinalEvent).transcriptionService.transcript = [] ∧
    ((startedController.onSystemAudioResult "12:00:02".toList "12:00:02".toList
        "12:00:02".toList worldFinalEvent).stopRecording exampleClock).2 =
      .returned warningSentinel ∧
    ¬ ("[System Audio]".toList <:+: warningSentinel) ∧
    (meetingDataOf "1".toList "2".toList "standup".toList warningSentinel
        "summary".toList).fullTranscript = warningSentinel := by
  decide

/-- C3.  A microphone result event appends to the transcript exactly the lines
`[<ts>] [Me] <trim(t)>`, each followed by one newline, of the final results it
reports (those from `resultIndex` on), in their order, `ts` being the time
read while that result is handled; no other field changes. -/
theorem C3_mic_result_appends_tagged_lines (clock : Nat → Str) (s : TranscriptionService)
    (event : ResultEvent) :
    (s.onresult clock event).1 =
      { s with transcript := s.transcript ++ (expectedMicLines clock event).flatten } := by
  simp [TranscriptionService.onresult, micResultLoop_buffer, expectedMicLines]

/-- C4 (code defect).  Through the wiring of `setupSystemAudio`, a final
system-audio result with text `t` appends the line
`[<ts>] [System Audio] [System Audio] <t>`: the label occurs twice, so the line
differs from `[<ts>] [System Audio] <t>`. -/
theorem C4_system_audio_label_doubled (ts t : Str) (s : TranscriptionService)
    (a : SystemAudioService) :
    (s.onSystemAudioResult ts { a with onTranscriptUpdate := some .merger }
        { resultIndex := 0, results := [{ transcript := t, isFinal := true }] }).1.transcript =
      s.transcript ++
        ('[' :: ts ++ "] [System Audio] [System Audio] ".toList ++ t ++ ['\n']) ∧
    '[' :: ts ++ "] [System Audio] [System Audio] ".toList ++ t ++ ['\n'] ≠
      '[' :: ts ++ "] [System Audio] ".toList ++ t ++ ['\n'] := by
  constructor
  · simp [TranscriptionService.onSystemAudioResult, SystemAudioService.onresult, sysResultStep,
      TranscriptionService.handleSystemAudioTranscript, truthy]
  · intro h
    have := congrArg List.length h
    simp at this
    omega

theorem stopRecording_never_empty (clock : Nat → Str) (s : TranscriptionService) :
    (s.stopRecording clock).2 ≠ .returned [] := by
  unfold TranscriptionService.stopRecording
  simp only
  cases guardedStop s.recognition with
  | threw e => simp
  | returned u =>
    cases guardedStop s.systemRecognition with
    | threw e => simp
    | returned v =>
      simp only [ne_eq, Completion.returned.injEq]
      exact finalizeTranscript_ne_nil _ _

theorem stopRecording_blank_of_quiet (clock : Nat → Str) (s : TranscriptionService)
    (hq : stopsQuietly s) (hblank : ∀ line ∈ split s.transcript, trim line = []) :
    (s.stopRecording clock).2 = .returned warningSentinel := by
  rw [stopRecording_of_quiet clock s hq]
  simp only
  rw [finalizeTranscript_of_kept_nil clock s.transcript (keptLines_of_blank _ hblank)]

theorem stopRecording_twice_state (c1 c2 : Nat → Str) (s : TranscriptionService) :
    ((s.stopRecording c1).1.stopRecording c2).1 = (s.stopRecording c1).1 := by
  unfold TranscriptionService.stopRecording
  simp only
  cases h1 : guardedStop s.recognition with
  | threw e => simp [h1]
  | returned u =>
    cases h2 : guardedStop s.systemRecognition with
    | threw e => simp [h1, h2]
    | returned v => simp [h1, h2]

theorem stopRecording_twice_result (c1 c2 : Nat → Str) (s : TranscriptionService)
    (h : finalizeTranscript c2 s.transcript = finalizeTranscript c1 s.transcript) :
    ((s.stopRecording c1).1.stopRecording c2).2 = (s.stopRecording c1).2 := by
  unfold TranscriptionService.stopRecording
  simp only
  cases h1 : guardedStop s.recognition with
  | threw e => simp [h1]
  | returned u =>
    cases h2 : guardedStop s.systemRecognition with
    | threw e => simp [h1, h2]
    | returned v => simp [h1, h2, h]

/-- C5 (code defect).  On a recording service whose buffer is empty and whose
microphone engine raises on `stop()`, `stopRecording` throws: the sentinel is
not returned. -/
theorem C5_blank_buffer_stop_throws :
    stuckEngineService.transcript = [] ∧
    (∀ line ∈ split stuckEngineService.transcript, trim line = []) ∧
    (stuckEngineService.stopRecording exampleClock).2 = .threw .engineStop ∧
    (stuckEngineService.stopRecording exampleClock).2 ≠ .returned warningSentinel := by
  decide

/-- C6 (as stated, refuted).  After the final microphone fragment with the
two-line text `a` / `b`, two successive calls of `stopRecording` made at
different clock readings return different strings; and on a service whose
microphone engine raises on `stop()` the first call returns no string. -/
theorem C6_second_stop_restamps_loose_line :
    ((deliverAll exampleClock 0 recordingService [twoLineFragment]).stopRecording
        (fixedClock "12:00:05")).2 = .returned "[12:00:01] [Me] a\n[12:00:05] b".toList ∧
    ((((deliverAll exampleClock 0 recordingService [twoLineFragment]).stopRecording
        (fixedClock "12:00:05")).1).stopRecording (fixedClock "12:00:06")).2 =
      .returned "[12:00:01] [Me] a\n[12:00:06] b".toList ∧
    ((((deliverAll exampleClock 0 recordingService [twoLineFragment]).stopRecording
        (fixedClock "12:00:05")).1).stopRecording (fixedClock "12:00:06")).2 ≠
      ((deliverAll exampleClock 0 recordingService [twoLineFragment]).stopRecording
        (fixedClock "12:00:05")).2 ∧
    ((deliverAll exampleClock 0 stuckEngineService helloHelloWorld).stopRecording
        (fixedClock "12:00:05")).2 = .threw .engineStop := by
  decide

/-- C6 (amended).  For every transcript buffer built during a recording from
fragments whose recognised text holds no line break (time strings hold none),
and for every pair of clock readings, two successive calls of `stopRecording`
end alike and the second leaves the state exactly as the first left it; on a
service whose engines stop without raising, both calls return the same
string. -/
theorem C6_stop_twice_returns_same_text (clock c1 c2 : Nat → Str) (s0 : TranscriptionService)
    (fs : List TranscriptFragment) (hfresh : s0.transcript = [])
    (hclock : ∀ n, '\n' ∉ clock n) (htext : ∀ f ∈ fs, '\n' ∉ f.text) :
    ((((deliverAll clock 0 s0 fs).stopRecording c1).1).stopRecording c2).2 =
      ((deliverAll clock 0 s0 fs).stopRecording c1).2 ∧
    ((((deliverAll clock 0 s0 fs).stopRecording c1).1).stopRecording c2).1 =
      ((deliverAll clock 0 s0 fs).stopRecording c1).1 ∧
    (stopsQuietly s0 →
      ∃ out,
        ((deliverAll clock 0 s0 fs).stopRecording c1).2 = .returned out ∧
        ((((deliverAll clock 0 s0 fs).stopRecording c1).1).stopRecording c2).2 =
          .returned out) := by
  have hsame : finalizeTranscript c2 (deliverAll clock 0 s0 fs).transcript =
      finalizeTranscript c1 (deliverAll clock 0 s0 fs).transcript := by
    rw [deliverAll_eq, hfresh]
    simp only [List.nil_append]
    exact finalizeTranscript_of_stamped c2 c1 _ (stamped_fragmentLines clock fs hclock htext 0)
  have hres := stopRecording_twice_result c1 c2 (deliverAll clock 0 s0 fs) hsame
  refine ⟨hres, stopRecording_twice_state c1 c2 _, ?_⟩
  intro hquiet
  have hq1 : stopsQuietly (deliverAll clock 0 s0 fs) := by
    rw [deliverAll_eq]
    exact hquiet
  have hfirst := stopRecording_of_quiet c1 (deliverAll clock 0 s0 fs) hq1
  refine ⟨finalizeTranscript c1 (deliverAll clock 0 s0 fs).transcript, ?_, ?_⟩
  · rw [hfirst]
  · rw [hres, hfirst]

/-- C6 (amended) at the three finals of the worked example. -/
theorem C6_stop_twice_returns_same_text_witness :
    stopsQuietly recordingService ∧
    ((deliverAll (fixedClock "12:00:01") 0 recordingService helloHelloWorld).stopRecording
        (fixedClock "12:00:05")).2 =
      .returned
        "[12:00:01] [Me] hello\n[12:00:01] [Me] hello\n[12:00:01] [System Audio] world".toList ∧
    ((((deliverAll (fixedClock "12:00:01") 0 recordingService helloHelloWorld).stopRecording
        (fixedClock "12:00:05")).1).stopRecording (fixedClock "12:00:06")).2 =
      ((deliverAll (fixedClock "12:00:01") 0 recordingService helloHelloWorld).stopRecording
        (fixedClock "12:00:05")).2 ∧
    ∃ out,
      ((deliverAll (fixedClock "12:00:01") 0 recordingService helloHelloWorld).stopRecording
        (fixedClock "12:00:05")).2 = .returned out ∧
      ((((deliverAll (fixedClock "12:00:01") 0 recordingService helloHelloWorld).stopRecording
        (fixedClock "12:00:05")).1).stopRecording (fixedClock "12:00:06")).2 = .returned out :=
  ⟨⟨rfl, rfl⟩, by decide,
    (C6_stop_twice_returns_same_text (fixedClock "12:00:01") (fixedClock "12:00:05")
      (fixedClock "12:00:06") recordingService helloHelloWorld rfl
      (fun _ => (by decide : '\n' ∉ "12:00:01".toList)) (by decide)).1,
    (C6_stop_twice_returns_same_text (fixedClock "12:00:01") (fixedClock "12:00:05")
      (fixedClock "12:00:06") recordingService helloHelloWorld rfl
      (fun _ => (by decide : '\n' ∉ "12:00:01".toList)) (by decide)).2.2 ⟨rfl, rfl⟩⟩

/-- C7 (code defect).  On a recording service whose microphone engine raises
on `stop()`, `stopRecording` clears both flags and then throws: no string is
returned. -/
theorem C7_stop_exception_escapes :
    (stuckEngineService.stopRecording exampleClock).2 = .threw .engineStop ∧
    (stuckEngineService.stopRecording exampleClock).1.isRecording = false ∧
    (stuckEngineService.stopRecording exampleClock).1.isSystemAudioActive = false := by
  decide

/-- C8.  A microphone result event all of whose results are non-final, a
`handleSystemAudioTranscript` call whose final fragment is empty, and a
system-audio result event all of whose results are non-final that arrives
through the wiring of `setupSystemAudio`, leave the transcript unchanged; so
`stopRecording` returns the same text as if the fragment had not been
delivered. -/
theorem C8_interim_fragments_leave_transcript (clock c : Nat → Str) (ts interim : Str)
    (s : TranscriptionService) (a : SystemAudioService) (event : ResultEvent)
    (h : ∀ r ∈ event.results, r.isFinal = false) :
    (s.onresult clock event).1.transcript = s.transcript ∧
    (s.handleSystemAudioTranscript ts [] interim).1.transcript = s.transcript ∧
    (s.onSystemAudioResult ts a event).1.transcript = s.transcript ∧
    ((s.onresult clock event).1.stopRecording c).2 = (s.stopRecording c).2 ∧
    ((s.handleSystemAudioTranscript ts [] interim).1.stopRecording c).2 =
      (s.stopRecording c).2 ∧
    ((s.onSystemAudioResult ts a event).1.stopRecording c).2 = (s.stopRecording c).2 := by
  have hnone : (List.enumFrom event.resultIndex (event.results.drop event.resultIndex)).filter
      (fun p => p.2.isFinal) = [] := by
    rw [List.filter_eq_nil_iff]
    intro p hp
    have h1 : p.2 ∈ event.results.drop event.resultIndex := by
      have := List.mem_map_of_mem Prod.snd hp
      simpa [List.enumFrom_map_snd] using this
    simp [h p.2 (List.mem_of_mem_drop h1)]
  have e1 : (s.onresult clock event).1 = s := by
    simp [TranscriptionService.onresult, micResultLoop_buffer, hnone]
  have e2 : ∀ i : Str, (s.handleSystemAudioTranscript ts [] i).1 = s := by
    intro i
    simp [TranscriptionService.handleSystemAudioTranscript, truthy]
  have e3 : (s.onSystemAudioResult ts a event).1 = s := by
    have hfold := sysResult_foldl_interim (event.results.drop event.resultIndex)
      (fun r hr => h r (List.mem_of_mem_drop hr)) ([], [])
    unfold TranscriptionService.onSystemAudioResult SystemAudioService.onresult
    cases a.onTranscriptUpdate with
    | none => rfl
    | some cb =>
      cases cb with
      | display => rfl
      | merger =>
        simp only
        rw [hfold]
        exact e2 _
  rw [e1, e2, e3]
  exact ⟨rfl, rfl, rfl, rfl, rfl, rfl⟩

/-- C8 at an event holding one interim result, on a service that has recorded
the three finals of the worked example. -/
theorem C8_interim_fragments_leave_transcript_witness :
    (∀ r ∈ interimEvent.results, r.isFinal = false) ∧
    (((deliverAll exampleClock 0 recordingService helloHelloWorld).onresult exampleClock
        interimEvent).1.stopRecording exampleClock).2 =
      ((deliverAll exampleClock 0 recordingService helloHelloWorld).stopRecording
        exampleClock).2 :=
  ⟨by decide,
    (C8_interim_fragments_leave_transcript exampleClock exampleClock [] "wor".toList
      (deliverAll exampleClock 0 recordingService helloHelloWorld) SystemAudioService.new
      interimEvent (by decide)).2.2.2.1⟩

/-- C9 (as stated, refuted).  After the final microphone fragment with text
`a` / `[b`, `stopRecording` returns the line `[b` unchanged, although it carries
no `[<time>] ` prefix. -/
theorem C9_bracket_line_returned_without_timestamp :
    ((deliverAll exampleClock 0 recordingService [bracketLineFragment]).stopRecording
        (fixedClock "12:00:05")).2 = .returned "[12:00:01] [Me] a\n[b".toList ∧
    "[b".toList ∈ split "[12:00:01] [Me] a\n[b".toList ∧
    ¬ carriesTimestamp "[b".toList := by
  refine ⟨by decide, by decide, ?_⟩
  rintro ⟨time, rest, h⟩
  have := congrArg List.length h
  simp at this
  omega

/-- C9 (amended).  On a state whose engines stop without raising, and for
time strings without line break, `stopRecording` returns the sentinel when the
trimmed buffer has no non-blank line, and otherwise the non-blank lines of the
trimmed buffer, in their order, joined by single newlines, where a line that
begins with `[` is unchanged and every other line is prefixed with `[<now>] `;
every line of the returned text is non-blank and begins with `[`. -/
theorem C9_stop_returns_kept_lines_stamped (clock : Nat → Str) (s : TranscriptionService)
    (hquiet : stopsQuietly s) (hclock : ∀ k, '\n' ∉ clock k) :
    ∃ out,
      (s.stopRecording clock).2 = .returned out ∧
      (keptLines s.transcript = [] → out = warningSentinel) ∧
      (keptLines s.transcript ≠ [] →
        out = join ((List.enumFrom 0 (keptLines s.transcript)).map
          (fun p => stampRule clock p.1 p.2))) ∧
      ∀ line ∈ split out, nonBlank line = true ∧ startsWithBracket line = true := by
  rw [stopRecording_of_quiet clock s hquiet]
  refine ⟨_, rfl, ?_, ?_, ?_⟩
  · intro hk
    exact finalizeTranscript_of_kept_nil clock s.transcript hk
  · intro hk
    rw [finalizeTranscript_of_kept_ne_nil clock s.transcript hk, restamp_eq_map]
  · intro line hline
    suffices hb : startsWithBracket line = true from ⟨nonBlank_of_startsWithBracket line hb, hb⟩
    by_cases hk : keptLines s.transcript = []
    · rw [finalizeTranscript_of_kept_nil clock s.transcript hk] at hline
      have : line = warningSentinel := by
        have hs : split warningSentinel = [warningSentinel] := by decide
        rw [hs] at hline
        simpa using hline
      rw [this]; decide
    · rw [finalizeTranscript_of_kept_ne_nil clock s.transcript hk] at hline
      have hno : ∀ l ∈ restamp clock 0 (keptLines s.transcript), '\n' ∉ l := by
        intro l hl
        obtain ⟨j, x, hx, he⟩ := mem_restamp clock _ _ _ hl
        have hx1 : x ∈ split (trim s.transcript) := (List.mem_filter.1 hx).1
        have hx2 := newline_not_mem_of_mem_split _ x hx1
        rw [he]
        unfold stampRule
        split
        · exact hx2
        · have := hclock j
          simp [this, hx2]
      rw [split_join _ hno (by rw [Ne, restamp_eq_nil]; exact hk)] at hline
      obtain ⟨j, x, _, he⟩ := mem_restamp clock _ _ _ hline
      rw [he]
      exact stampRule_bracket clock j x

/-- C9 (amended) at a buffer holding a stamped line, a blank line and a loose
line. -/
theorem C9_stop_returns_kept_lines_stamped_witness :
    stopsQuietly mixedBufferService ∧
    (mixedBufferService.stopRecording (fixedClock "12:00:09")).2 =
      .returned "[12:00:01] [Me] hi\n[12:00:09] loose line".toList ∧
    ∃ out,
      (mixedBufferService.stopRecording (fixedClock "12:00:09")).2 = .returned out ∧
      (keptLines mixedBufferService.transcript = [] → out = warningSentinel) ∧
      (keptLines mixedBufferService.transcript ≠ [] →
        out = join ((List.enumFrom 0 (keptLines mixedBufferService.transcript)).map
          (fun p => stampRule (fixedClock "12:00:09") p.1 p.2))) ∧
      ∀ line ∈ split out, nonBlank line = true ∧ startsWithBracket line = true :=
  ⟨⟨rfl, rfl⟩, by decide,
    C9_stop_returns_kept_lines_stamped (fixedClock "12:00:09") mixedBufferService ⟨rfl, rfl⟩
      (fun _ => (by decide : '\n' ∉ "12:00:09".toList))⟩

/-- C10 (code defect).  A refused permission leaves the service untouched, but
when the engine's `start()` raises on an idle service that holds an earlier
transcript, the error propagates with `isRecording` set and the transcript
cleared. -/
theorem C10_failed_start_leaves_recording_flag_set :
    (∀ (s : TranscriptionService) (messageOk : Bool),
      s.startRecording (requestPermissions messageOk false) =
        (s, .threw .microphonePermissionRequired)) ∧
    idleServiceWithFailingEngine.isRecording = false ∧
    idleServiceWithFailingEngine.transcript = "[11:00:00] [Me] earlier".toList ∧
    (idleServiceWithFailingEngine.startRecording (requestPermissions true true)).2 =
      .threw .engineStart ∧
    (idleServiceWithFailingEngine.startRecording (requestPermissions true true)).1.isRecording =
      true ∧
    (idleServiceWithFailingEngine.startRecording (requestPermissions true true)).1.transcript =
      [] := by
  refine ⟨?_, by decide, by decide, by decide, by decide, by decide⟩
  intro s messageOk
  cases messageOk <;> rfl

/-! ## Lemmas on capture and recovery -/

theorem stopCapture_callback (a : SystemAudioService) :
    a.stopCapture.1.onTranscriptUpdate = none ∨
      a.stopCapture.1.onTranscriptUpdate = a.onTranscriptUpdate := by
  unfold SystemAudioService.stopCapture
  cases guardedStop a.recognition with
  | threw e => right; rfl
  | returned u => left; rfl

theorem startCapture_threw_callback (env : CaptureEnv) (a : SystemAudioService)
    (cb : Option FragmentCallback) (e : JsError)
    (h : (a.startCapture env cb).2.2 = .threw e) :
    (a.startCapture env cb).1.onTranscriptUpdate = none ∨
      (a.startCapture env cb).1.onTranscriptUpdate = cb := by
  unfold SystemAudioService.startCapture at h ⊢
  cases hcap : a.isCapturing with
  | true => simp [hcap] at h
  | false =>
    simp only [hcap, Bool.false_eq_true, if_false] at h ⊢
    cases hst : env.tabStream with
    | none => exact stopCapture_callback _
    | some st =>
      simp only [hst] at h ⊢
      cases hag : env.audioGraph with
      | contextFails => exact stopCapture_callback _
      | wiringFails => exact stopCapture_callback _
      | built =>
        simp only [hag] at h ⊢
        cases hsup : env.speechSupported with
        | false => exact stopCapture_callback _
        | true =>
          simp only [hsup] at h ⊢
          cases hes : env.engine.startRaises with
          | true =>
            simp only [engineStart, hes, if_true, Bool.not_true, Bool.false_eq_true,
              if_false] at h ⊢
            exact stopCapture_callback _
          | false =>
            simp [engineStart, hes] at h

/-! ## Lemmas on the controller -/

theorem showUpdate_services (interimNow finalNow : Str) (c : SidePanelController)
    (u : Option Update) :
    (c.showUpdate interimNow finalNow u).transcriptionService = c.transcriptionService ∧
    (c.showUpdate interimNow finalNow u).systemAudioService = c.systemAudioService := by
  cases u <;> exact ⟨rfl, rfl⟩

theorem onresult_state (clock : Nat → Str) (s : TranscriptionService) (event : ResultEvent) :
    (s.onresult clock event).1 =
      { s with transcript := s.transcript ++ (expectedMicLines clock event).flatten } := by
  simp [TranscriptionService.onresult, micResultLoop_buffer, expectedMicLines]

theorem handle_services (c : SidePanelController) (ev : ControllerEvent)
    (h : c.systemAudioService.onTranscriptUpdate ≠ some .merger) :
    (c.handle ev).transcriptionService =
      { c.transcriptionService with
        transcript := c.transcriptionService.transcript ++ micLinesOf [ev] } ∧
    (c.handle ev).systemAudioService = c.systemAudioService := by
  cases ev with
  | micResult clock interimNow finalNow event =>
    unfold SidePanelController.handle SidePanelController.onMicResult
    have hs := showUpdate_services interimNow finalNow
      { c with transcriptionService := (c.transcriptionService.onresult clock event).1 }
      (c.transcriptionService.onresult clock event).2
    refine ⟨?_, hs.2⟩
    rw [hs.1]
    simp [onresult_state, micLinesOf]
  | systemAudioResult timestamp interimNow finalNow event =>
    unfold SidePanelController.handle SidePanelController.onSystemAudioResult
      SystemAudioService.onresult
    cases hcb : c.systemAudioService.onTranscriptUpdate with
    | none => simp [micLinesOf]
    | some cb =>
      cases cb with
      | merger => exact absurd hcb h
      | display =>
        simp only [micLinesOf, List.append_nil]
        unfold SidePanelController.displayCallback
        split <;> exact ⟨rfl, rfl⟩

theorem micLinesOf_cons (ev : ControllerEvent) (rest : List ControllerEvent) :
    micLinesOf (ev :: rest) = micLinesOf [ev] ++ micLinesOf rest := by
  cases ev <;> simp [micLinesOf]

theorem handleAll_services (events : List ControllerEvent) :
    ∀ c : SidePanelController, c.systemAudioService.onTranscriptUpdate ≠ some .merger →
      (c.handleAll events).transcriptionService =
        { c.transcriptionService with
          transcript := c.transcriptionService.transcript ++ micLinesOf events } ∧
      (c.handleAll events).systemAudioService = c.systemAudioService := by
  induction events with
  | nil => intro c _; simp [SidePanelController.handleAll, micLinesOf]
  | cons ev rest ih =>
    intro c h
    have h1 := handle_services c ev h
    have h2 := ih (c.handle ev) (by rw [h1.2]; exact h)
    have e : c.handleAll (ev :: rest) = (c.handle ev).handleAll rest := rfl
    rw [e, h2.1, h2.2, h1.1, h1.2, micLinesOf_cons ev rest]
    simp

theorem controller_stopRecording_result (clock : Nat → Str) (c : SidePanelController) :
    (c.stopRecording clock).2 = (c.transcriptionService.stopRecording clock).2 := by
  unfold SidePanelController.stopRecording
  simp only
  cases h : c.transcriptionService.stopRecording clock with
  | mk ts r => cases r <;> rfl

theorem startRecording_returned (hasPermission : Bool) (s : TranscriptionService)
    (h : (s.startRecording hasPermission).2 = .returned true) :
    (s.startRecording hasPermission).1 = { s with isRecording := true, transcript := [] } := by
  unfold TranscriptionService.startRecording at h ⊢
  cases hasPermission with
  | false => simp at h
  | true =>
    simp only [Bool.not_true, Bool.false_eq_true, if_false]
    cases engineStart s.recognition <;> rfl

theorem controller_startRecording_mic_only (hasPermission : Bool) (env : CaptureEnv)
    (c : SidePanelController) (e : JsError)
    (hmic : (c.transcriptionService.startRecording hasPermission).2 = .returned true)
    (hcap : (c.systemAudioService.startCapture env (some .display)).2.2 = .threw e) :
    c.startRecording hasPermission env =
      { c with
        transcriptionService :=
          { c.transcriptionService with isRecording := true, transcript := [] }
        systemAudioService := (c.systemAudioService.startCapture env (some .display)).1
        isSystemAudioActive := false
        systemStatusActive := false
        isRecording := true } := by
  have h1 := startRecording_returned hasPermission c.transcriptionService hmic
  unfold SidePanelController.startRecording
  rcases hts : c.transcriptionService.startRecording hasPermission with ⟨ts, r⟩
  rw [hts] at hmic h1
  simp only at hmic h1
  subst hmic
  subst h1
  rcases hsa : c.systemAudioService.startCapture env (some .display) with ⟨sa, stopped, r2⟩
  rw [hsa] at hcap
  simp only at hcap
  subst hcap
  rfl

/-! ## Lemmas on the recording operations -/

theorem fire_service (w : Recording) (k : Nat) : (w.fire k).1.service = w.service := by
  unfold Recording.fire
  cases w.pending.get? k with
  | none => rfl
  | some t =>
    simp only
    cases t.callback with
    | micRestart =>
      simp only [RestartCallback.run]
      cases w.service.recognition <;> rfl
    | systemEndRestart =>
      simp only [RestartCallback.run]
      cases w.service.systemRecognition <;> rfl
    | systemRestart =>
      simp only [RestartCallback.run]
      cases w.service.systemRecognition <;> rfl
    | captureRestart =>
      simp only [RestartCallback.run]
      cases w.capture.recognition <;> rfl

theorem stopRecording_transcript (clock : Nat → Str) (s : TranscriptionService) :
    (s.stopRecording clock).1.transcript = s.transcript := by
  unfold TranscriptionService.stopRecording
  simp only
  cases guardedStop s.recognition with
  | threw e => rfl
  | returned u =>
    cases guardedStop s.systemRecognition <;> rfl

theorem handleSystemAudioTranscript_grows (ts : Str) (s : TranscriptionService)
    (finalTranscript interimTranscript : Str) :
    s.transcript <+:
      (s.handleSystemAudioTranscript ts finalTranscript interimTranscript).1.transcript := by
  unfold TranscriptionService.handleSystemAudioTranscript
  cases truthy finalTranscript
  · exact List.prefix_refl _
  · exact List.prefix_append _ _

theorem onSystemAudioResult_grows (ts : Str) (s : TranscriptionService)
    (a : SystemAudioService) (event : ResultEvent) :
    s.transcript <+: (s.onSystemAudioResult ts a event).1.transcript := by
  unfold TranscriptionService.onSystemAudioResult
  cases a.onresult event with
  | none => exact List.prefix_refl _
  | some p =>
    obtain ⟨cb, u⟩ := p
    cases cb with
    | display => exact List.prefix_refl _
    | merger =>
      exact handleSystemAudioTranscript_grows ts s u.finalTranscript u.interimTranscript

theorem step_grows (w : Recording) (op : Operation) :
    w.service.transcript <+: (w.step op).service.transcript := by
  cases op with
  | micResult clock event =>
    simp only [Recording.step, onresult_state]
    exact List.prefix_append _ _
  | captureResult timestamp event => exact onSystemAudioResult_grows _ _ _ _
  | handleSystemAudioTranscript timestamp finalTranscript interimTranscript =>
    exact handleSystemAudioTranscript_grows timestamp w.service finalTranscript
      interimTranscript
  | fire k =>
    simp only [Recording.step, fire_service]
    exact List.prefix_refl _
  | stopRecording clock =>
    simp only [Recording.step, stopRecording_transcript]
    exact List.prefix_refl _
  | micError error => exact List.prefix_refl _
  | micEnd => exact List.prefix_refl _
  | captureError error => exact List.prefix_refl _
  | captureEnd => exact List.prefix_refl _
  | systemError error => exact List.prefix_refl _
  | systemEnd => exact List.prefix_refl _
  | restartSystemRecognition => exact List.prefix_refl _
  | recoverFromError env => exact List.prefix_refl _
  | stopCapture => exact List.prefix_refl _

theorem run_grows (ops : List Operation) :
    ∀ w : Recording, w.service.transcript <+: (w.run ops).service.transcript := by
  induction ops with
  | nil => intro w; exact List.prefix_refl _
  | cons op rest ih =>
    intro w
    exact (step_grows w op).trans (ih (w.step op))

theorem recoverFromError_callback_lost (env : CaptureEnv) (a : SystemAudioService)
    (hcap : a.isCapturing = true) (hstop : guardedStop a.recognition = .returned ())
    (hnew : (a.recoverFromError env).1.isCapturing = true) :
    (a.recoverFromError env).1.onTranscriptUpdate = none := by
  unfold SystemAudioService.recoverFromError at hnew ⊢
  simp only [hcap, if_true] at hnew ⊢
  have h1 : a.stopCapture.1 =
      { a with recognition := none, stream := none, audioContext := false,
               isCapturing := false, onTranscriptUpdate := none } := by
    unfold SystemAudioService.stopCapture
    rw [hstop]
  rw [h1] at hnew ⊢
  simp only at hnew ⊢
  unfold SystemAudioService.startCapture at hnew ⊢
  simp only [Bool.false_eq_true, if_false] at hnew ⊢
  cases hst : env.tabStream with
  | none => simp [hst, SystemAudioService.failCapture, SystemAudioService.stopCapture,
      guardedStop] at hnew
  | some st =>
    simp only [hst] at hnew ⊢
    cases hag : env.audioGraph with
    | contextFails => simp [hag, SystemAudioService.failCapture, SystemAudioService.stopCapture,
        guardedStop] at hnew
    | wiringFails => simp [hag, SystemAudioService.failCapture, SystemAudioService.stopCapture,
        guardedStop] at hnew
    | built =>
      simp only [hag] at hnew ⊢
      cases hsup : env.speechSupported with
      | false => simp [hsup, SystemAudioService.failCapture, SystemAudioService.stopCapture,
          guardedStop] at hnew
      | true =>
        simp only [hsup, Bool.not_true, Bool.false_eq_true, if_false] at hnew ⊢
        cases hes : env.engine.startRaises with
        | true =>
          cases hep : env.engine.stopRaises <;>
            simp [engineStart, hes, hep, SystemAudioService.failCapture,
              SystemAudioService.stopCapture, guardedStop] at hnew
        | false => simp [engineStart, hes]

theorem readSummary_none_iff (data : ResponseData) :
    readSummary data = none ↔ firstPart data = none := by
  rcases data with ⟨candidates⟩
  cases candidates with
  | none => simp [readSummary, firstPart]
  | some cs =>
    cases cs with
    | nil => simp [readSummary, firstPart]
    | cons c rest =>
      rcases c with ⟨content⟩
      cases content with
      | none => simp [readSummary, firstPart]
      | some ct =>
        rcases ct with ⟨parts⟩
        cases parts with
        | none => simp [readSummary, firstPart]
        | some ps =>
          cases ps with
          | nil => simp [readSummary, firstPart]
          | cons p more =>
            rcases p with ⟨text⟩
            cases text <;> simp [readSummary, firstPart]

theorem recoverFromError_returns (env : CaptureEnv) (a : SystemAudioService) :
    (a.recoverFromError env).2.2 = .returned () := by
  unfold SystemAudioService.recoverFromError
  cases a.isCapturing <;> rfl

theorem failCapture_releases (a : SystemAudioService) (e : JsError)
    (h : guardedStop a.recognition = .returned ()) :
    (a.failCapture e).1 = SystemAudioService.new := by
  unfold SystemAudioService.failCapture SystemAudioService.stopCapture
  rw [h]
  rfl

theorem recoverFromError_failed_inactive (env : CaptureEnv) (a : SystemAudioService)
    (e : JsError) (hcap : a.isCapturing = true)
    (hstop : guardedStop a.recognition = .returned ())
    (hquiet : env.engine.stopRaises = false)
    (hfail : (a.stopCapture.1.startCapture env a.stopCapture.1.onTranscriptUpdate).2.2 =
      .threw e) :
    (a.recoverFromError env).1 = SystemAudioService.new := by
  unfold SystemAudioService.recoverFromError
  simp only [hcap, if_true]
  have h1 : a.stopCapture.1 =
      { a with recognition := none, stream := none, audioContext := false,
               isCapturing := false, onTranscriptUpdate := none } := by
    unfold SystemAudioService.stopCapture
    rw [hstop]
  rw [h1] at hfail ⊢
  simp only at hfail ⊢
  unfold SystemAudioService.startCapture at hfail ⊢
  simp only [Bool.false_eq_true, if_false] at hfail ⊢
  cases hst : env.tabStream with
  | none => exact failCapture_releases _ _ rfl
  | some st =>
    simp only [hst] at hfail ⊢
    cases hag : env.audioGraph with
    | contextFails => exact failCapture_releases _ _ rfl
    | wiringFails => exact failCapture_releases _ _ rfl
    | built =>
      simp only [hag] at hfail ⊢
      cases hsup : env.speechSupported with
      | false => exact failCapture_releases _ _ rfl
      | true =>
        simp only [hsup, Bool.not_true, Bool.false_eq_true, if_false] at hfail ⊢
        cases hes : env.engine.startRaises with
        | true =>
          simp only [engineStart, hes, if_true]
          exact failCapture_releases _ _ (by simp [guardedStop, hquiet])
        | false => simp [engineStart, hes] at hfail

/-! ## Lemmas on buffers of `[Me]` lines -/

theorem trimEnd_append_cons (x y : Str) (c : Char) (hc : isWhiteSpace c = false) :
    trimEnd (x ++ c :: y) = x ++ c :: trimEnd y := by
  unfold trimEnd
  have e : (x ++ c :: y).reverse = y.reverse ++ (c :: x.reverse) := by simp
  rw [e, List.dropWhile_append]
  cases h : (List.dropWhile isWhiteSpace y.reverse).isEmpty with
  | true =>
    have h0 : List.dropWhile isWhiteSpace y.reverse = [] := by
      simpa [List.isEmpty_iff] using h
    simp [h0, List.dropWhile, hc]
  | false => simp

theorem trimEnd_concat_newline (y : Str) : trimEnd (y ++ ['\n']) = trimEnd y := by
  unfold trimEnd
  have h : isWhiteSpace '\n' = true := by decide
  simp [List.dropWhile, h]

theorem split_lines_then_tail (init : List Str) (tail : Str)
    (hinit : ∀ l ∈ init, '\n' ∉ l) (htail : '\n' ∉ tail) :
    split ((init.map (fun l => l ++ ['\n'])).flatten ++ tail) = init ++ [tail] := by
  induction init with
  | nil =>
    simp only [List.map_nil, List.flatten_nil, List.nil_append]
    unfold split List.splitOn
    apply List.splitOnP_eq_single
    intro x hx hxe
    have : x = '\n' := by simpa using hxe
    exact htail (this ▸ hx)
  | cons l rest ih =>
    have e : ((l :: rest).map (fun l => l ++ ['\n'])).flatten ++ tail =
        l ++ '\n' :: ((rest.map (fun l => l ++ ['\n'])).flatten ++ tail) := by simp
    rw [e, split_line_append l _ (hinit l (List.mem_cons_self _ _)),
      ih (fun x hx => hinit x (List.mem_cons_of_mem _ hx))]
    rfl

theorem trimStart_of_bracket (s : Str) (h : startsWithBracket s = true) : trimStart s = s := by
  cases s with
  | nil => simp [startsWithBracket] at h
  | cons c tl =>
    have hc : c = '[' := by simpa [startsWithBracket] using h
    subst hc
    have hb : isWhiteSpace '[' = false := by decide
    simp [trimStart, List.dropWhile, hb]

theorem trim_lines_then_last (init : List Str) (last : Str)
    (hinit : ∀ l ∈ init, startsWithBracket l = true) (hlast : startsWithBracket last = true) :
    trim (((init ++ [last]).map (fun l => l ++ ['\n'])).flatten) =
      (init.map (fun l => l ++ ['\n'])).flatten ++ trimEnd last := by
  cases last with
  | nil => simp [startsWithBracket] at hlast
  | cons c tl =>
    have hc : c = '[' := by simpa [startsWithBracket] using hlast
    subst hc
    have hbuf : ((init ++ ['[' :: tl]).map (fun l => l ++ ['\n'])).flatten =
        (init.map (fun l => l ++ ['\n'])).flatten ++ '[' :: (tl ++ ['\n']) := by simp
    have hhead : startsWithBracket (((init ++ ['[' :: tl]).map
        (fun l => l ++ ['\n'])).flatten) = true := by
      cases init with
      | nil => simp [startsWithBracket]
      | cons l0 more =>
        have h0 := hinit l0 (List.mem_cons_self _ _)
        cases l0 with
        | nil => simp [startsWithBracket] at h0
        | cons c0 t0 => simpa [startsWithBracket] using h0
    unfold trim
    rw [trimStart_of_bracket _ hhead, hbuf, trimEnd_append_cons _ _ '[' (by decide),
      trimEnd_concat_newline]
    have hl : trimEnd ('[' :: tl) = '[' :: trimEnd tl := by
      have := trimEnd_append_cons [] tl '[' (by decide)
      simpa using this
    rw [hl]

theorem finalizeTranscript_of_bracket_lines (clock : Nat → Str) (init : List Str) (last : Str)
    (h : ∀ l ∈ init ++ [last], startsWithBracket l = true ∧ '\n' ∉ l) :
    finalizeTranscript clock (((init ++ [last]).map (fun l => l ++ ['\n'])).flatten) =
        trim (((init ++ [last]).map (fun l => l ++ ['\n'])).flatten) ∧
      split (finalizeTranscript clock (((init ++ [last]).map (fun l => l ++ ['\n'])).flatten)) =
        init ++ [trimEnd last] := by
  have hinit : ∀ l ∈ init, startsWithBracket l = true ∧ '\n' ∉ l :=
    fun l hl => h l (by simp [hl])
  have hlast : startsWithBracket last = true ∧ '\n' ∉ last := h last (by simp)
  have htrim := trim_lines_then_last init last (fun l hl => (hinit l hl).1) hlast.1
  have hno : '\n' ∉ trimEnd last := fun hm => hlast.2 ((trimEnd_initial last).subset hm)
  have hsplit : split (trim (((init ++ [last]).map (fun l => l ++ ['\n'])).flatten)) =
      init ++ [trimEnd last] := by
    rw [htrim]
    exact split_lines_then_tail init (trimEnd last) (fun l hl => (hinit l hl).2) hno
  have hlastb : startsWithBracket (trimEnd last) = true := by
    cases last with
    | nil => simp [startsWithBracket] at hlast
    | cons c tl =>
      have hc : c = '[' := by simpa [startsWithBracket] using hlast.1
      subst hc
      have := trimEnd_append_cons [] tl '[' (by decide)
      simp only [List.nil_append] at this
      rw [this]
      rfl
  have hall : ∀ l ∈ init ++ [trimEnd last], startsWithBracket l = true := by
    intro l hl
    rcases List.mem_append.1 hl with h1 | h1
    · exact (hinit l h1).1
    · have : l = trimEnd last := by simpa using h1
      rw [this]; exact hlastb
  have hkept : keptLines (((init ++ [last]).map (fun l => l ++ ['\n'])).flatten) =
      init ++ [trimEnd last] := by
    unfold keptLines
    rw [hsplit, List.filter_eq_self]
    intro l hl
    exact nonBlank_of_startsWithBracket l (hall l hl)
  have hne : keptLines (((init ++ [last]).map (fun l => l ++ ['\n'])).flatten) ≠ [] := by
    rw [hkept]; simp
  have hfin : finalizeTranscript clock
      (((init ++ [last]).map (fun l => l ++ ['\n'])).flatten) =
      trim (((init ++ [last]).map (fun l => l ++ ['\n'])).flatten) := by
    rw [finalizeTranscript_of_kept_ne_nil clock _ hne, hkept, restamp_of_bracket clock _ hall,
      ← hsplit, join_split]
  exact ⟨hfin, by rw [hfin, hsplit]⟩

theorem micLinesOf_eq_bodies (events : List ControllerEvent) :
    micLinesOf events = ((meBodies events).map (fun l => l ++ ['\n'])).flatten := by
  induction events with
  | nil => rfl
  | cons ev rest ih =>
    cases ev with
    | micResult clock interimNow finalNow event =>
      simp [micLinesOf, meBodies, ih, expectedMicLines, micLine, List.flatten_append,
        Function.comp_def]
    | systemAudioResult timestamp interimNow finalNow event =>
      simp only [micLinesOf, meBodies, ih]

theorem meBodies_bracket (events : List ControllerEvent)
    (h : ∀ ev ∈ events, lineBreakFree ev) :
    ∀ l ∈ meBodies events, startsWithBracket l = true ∧ '\n' ∉ l := by
  induction events with
  | nil => intro l hl; simp [meBodies] at hl
  | cons ev rest ih =>
    have hrest := ih (fun e he => h e (List.mem_cons_of_mem _ he))
    cases ev with
    | micResult clock interimNow finalNow event =>
      obtain ⟨hclock, htext⟩ := h _ (List.mem_cons_self _ _)
      intro l hl
      simp only [meBodies] at hl
      rcases List.mem_append.1 hl with h1 | h1
      · obtain ⟨p, hp, hpl⟩ := List.mem_map.1 h1
        have hp1 := (List.mem_filter.1 hp).1
        have hp2 : p.2 ∈ event.results.drop event.resultIndex := by
          have := List.mem_map_of_mem Prod.snd hp1
          simpa [List.enumFrom_map_snd] using this
        have hno := newline_not_mem_trim _ (htext p.2 (List.mem_of_mem_drop hp2))
        have hc := hclock p.1
        rw [← hpl]
        constructor
        · rfl
        · simp [hc, hno]
      · exact hrest l h1
    | systemAudioResult timestamp interimNow finalNow event =>
      intro l hl
      simp only [meBodies] at hl
      exact hrest l hl

theorem finalizeTranscript_no_me_lines (clock : Nat → Str) (events : List ControllerEvent)
    (h : meBodies events = []) :
    finalizeTranscript clock (micLinesOf events) = warningSentinel := by
  rw [micLinesOf_eq_bodies, h]
  exact finalizeTranscript_of_kept_nil clock _ (by decide)

theorem finalizeTranscript_me_lines (clock : Nat → Str) (events : List ControllerEvent)
    (h : ∀ ev ∈ events, lineBreakFree ev) (init : List Str) (last : Str)
    (hb : meBodies events = init ++ [last]) :
    finalizeTranscript clock (micLinesOf events) = trim (micLinesOf events) ∧
      split (finalizeTranscript clock (micLinesOf events)) = init ++ [trimEnd last] := by
  rw [micLinesOf_eq_bodies, hb]
  apply finalizeTranscript_of_bracket_lines
  rw [← hb]
  exact meBodies_bracket events h

/-! ## The claims, continued -/

/-- C11 (as stated, refuted).  After a start in which tab capture is refused, a
microphone final with the two-line text `a` / `b` makes `stopRecording` return
the line `[12:00:05] b`, which carries no `[Me]` tag; and with no final at all
it returns the sentinel, which carries none either; when the microphone engine
raises on `stop()` no text is returned. -/
theorem C11_returned_text_has_untagged_line :
    micOnlyController.isRecording = true ∧
    micOnlyController.isSystemAudioActive = false ∧
    ((micOnlyController.handleAll [.micResult exampleClock [] [] twoLineEvent]).stopRecording
        (fixedClock "12:00:05")).2 = .returned "[12:00:01] [Me] a\n[12:00:05] b".toList ∧
    "[12:00:05] b".toList ∈ split "[12:00:01] [Me] a\n[12:00:05] b".toList ∧
    ¬ ("[Me]".toList <:+: "[12:00:05] b".toList) ∧
    ((micOnlyController.handleAll []).stopRecording (fixedClock "12:00:05")).2 =
      .returned warningSentinel ∧
    ¬ ("[Me]".toList <:+: warningSentinel) ∧
    stuckMicOnlyController.isRecording = true ∧
    ((stuckMicOnlyController.handleAll
        [.micResult exampleClock [] [] helloFinalEvent]).stopRecording
        (fixedClock "12:00:05")).2 = .threw .engineStop := by
  refine ⟨by decide, by decide, by decide, by decide, by decide, by decide, by decide,
    by decide, by decide⟩

/-- C11 (amended).  When the microphone start succeeds and `startCapture` fails,
the controller's `startRecording` ends with `isRecording` true and
`isSystemAudioActive` false and shows no error; whatever result events follow,
the transcript is made of the lines `[<ts>] [Me] <trim(t)>` of the microphone
finals, each followed by a newline, and of nothing else.  On a service whose
engines stop without raising, `stopRecording` returns the text computed from
that buffer: the sentinel when there is no microphone final, and, when no time
string or recognised text holds a line break, exactly those lines, the last one
without its trailing blanks. -/
theorem C11_capture_failure_keeps_mic_only_recording (hasPermission : Bool) (env : CaptureEnv)
    (c : SidePanelController) (e : JsError)
    (hmic : (c.transcriptionService.startRecording hasPermission).2 = .returned true)
    (hcap : (c.systemAudioService.startCapture env (some .display)).2.2 = .threw e) :
    (c.startRecording hasPermission env).isRecording = true ∧
    (c.startRecording hasPermission env).isSystemAudioActive = false ∧
    (c.startRecording hasPermission env).alerts = c.alerts ∧
    ∀ (events : List ControllerEvent) (clock : Nat → Str),
      ((c.startRecording hasPermission env).handleAll events).transcriptionService.transcript =
        ((meBodies events).map (fun l => l ++ ['\n'])).flatten ∧
      (stopsQuietly c.transcriptionService →
        (((c.startRecording hasPermission env).handleAll events).stopRecording clock).2 =
          .returned (finalizeTranscript clock
            (((meBodies events).map (fun l => l ++ ['\n'])).flatten)) ∧
        (meBodies events = [] →
          finalizeTranscript clock (((meBodies events).map (fun l => l ++ ['\n'])).flatten) =
            warningSentinel) ∧
        ((∀ ev ∈ events, lineBreakFree ev) →
          ∀ (init : List Str) (last : Str), meBodies events = init ++ [last] →
            split (finalizeTranscript clock
              (((meBodies events).map (fun l => l ++ ['\n'])).flatten)) =
              init ++ [trimEnd last])) := by
  have hc := controller_startRecording_mic_only hasPermission env c e hmic hcap
  have hsa : (c.startRecording hasPermission env).systemAudioService =
      (c.systemAudioService.startCapture env (some .display)).1 := by rw [hc]
  have hts : (c.startRecording hasPermission env).transcriptionService =
      { c.transcriptionService with isRecording := true, transcript := [] } := by rw [hc]
  refine ⟨by rw [hc], by rw [hc], by rw [hc], ?_⟩
  intro events clock
  have hcb : (c.startRecording hasPermission env).systemAudioService.onTranscriptUpdate ≠
      some .merger := by
    rw [hsa]
    rcases startCapture_threw_callback env c.systemAudioService (some .display) e hcap with h | h
    · rw [h]; simp
    · rw [h]; simp
  have hall := (handleAll_services events (c.startRecording hasPermission env) hcb).1
  rw [hts] at hall
  rw [← micLinesOf_eq_bodies]
  constructor
  · rw [hall]
    simp
  · intro hq
    refine ⟨?_, finalizeTranscript_no_me_lines clock events, ?_⟩
    · rw [controller_stopRecording_result, hall]
      have hq2 : stopsQuietly
          { ({ c.transcriptionService with isRecording := true, transcript := [] } :
              TranscriptionService) with
            transcript := [] ++ micLinesOf events } := hq
      rw [stopRecording_of_quiet clock _ hq2]
      simp
    · intro hfree init last hb
      exact (finalizeTranscript_me_lines clock events hfree init last hb).2

/-- C11 (amended) at a fresh controller on a platform that refuses tab capture,
followed by a microphone final `hello` and a system-audio final `world`. -/
theorem C11_capture_failure_keeps_mic_only_recording_witness :
    micOnlyController.isRecording = true ∧
    micOnlyController.isSystemAudioActive = false ∧
    micOnlyController.alerts = [] ∧
    (micOnlyController.handleAll
        [.micResult exampleClock [] [] helloFinalEvent,
         .systemAudioResult [] [] [] worldFinalEvent]).transcriptionService.transcript =
      "[12:00:01] [Me] hello\n".toList ∧
    ((micOnlyController.handleAll
        [.micResult exampleClock [] [] helloFinalEvent,
         .systemAudioResult [] [] [] worldFinalEvent]).stopRecording exampleClock).2 =
      .returned "[12:00:01] [Me] hello".toList := by
  have h := C11_capture_failure_keeps_mic_only_recording true refusedCapture
    (SidePanelController.new quietEngine) .captureFailed rfl rfl
  refine ⟨h.1, h.2.1, h.2.2.1, ?_, ?_⟩
  · have h1 := (h.2.2.2 [.micResult exampleClock [] [] helloFinalEvent,
      .systemAudioResult [] [] [] worldFinalEvent] exampleClock).1
    exact h1.trans (by decide)
  · have h2 := ((h.2.2.2 [.micResult exampleClock [] [] helloFinalEvent,
      .systemAudioResult [] [] [] worldFinalEvent] exampleClock).2 ⟨rfl, rfl⟩).1
    exact h2.trans (by decide)

/-- C12 (as stated, refuted).  While recording, a `no-speech` error of the
microphone engine schedules its restart after 300 ms, not 1000 ms; while system
audio is active, an error other than `no-speech` schedules no restart of either
system-audio engine, and neither does a `no-speech` error when the engine's
`stop()` raises. -/
theorem C12_error_policy_differs_per_session :
    recordingService.isRecording = true ∧
    recordingService.onerror noSpeech = [{ delayMs := 300, callback := .micRestart }] ∧
    systemActiveService.isSystemAudioActive = true ∧
    systemActiveService.systemOnerror "network".toList = [] ∧
    capturingService.isCapturing = true ∧
    capturingService.onerror "network".toList = [] ∧
    stuckSystemService.isSystemAudioActive = true ∧
    stuckSystemService.systemOnerror noSpeech = [] ∧
    stuckCaptureService.isCapturing = true ∧
    stuckCaptureService.onerror noSpeech = [] := by
  decide

/-- C12 (amended).  An error event of the microphone engine schedules exactly
one restart after 300 ms while `isRecording` holds, whatever the error, and
none otherwise.  An error event of `systemRecognition` schedules exactly one
restart after 1000 ms when the error is `no-speech`, `isSystemAudioActive`
holds and the engine's `stop()` completes; it schedules none for any other
error, while inactive, without engine, or when `stop()` raises.  An error event
of the engine of `SystemAudioService` schedules exactly one restart after
1000 ms when the error is `no-speech` and the engine's `stop()` completes; it
schedules none for any other error, without engine, or when `stop()` raises. -/
theorem C12_error_restart_policy (s : TranscriptionService) (a : SystemAudioService)
    (error : Str) :
    (s.isRecording = true →
      s.onerror error = [{ delayMs := 300, callback := .micRestart }]) ∧
    (s.isRecording = false → s.onerror error = []) ∧
    (∀ e : Engine, s.systemRecognition = some e → e.stopRaises = false →
      s.isSystemAudioActive = true →
      s.systemOnerror noSpeech = [{ delayMs := 1000, callback := .systemRestart }]) ∧
    (error ≠ noSpeech → s.systemOnerror error = []) ∧
    (s.isSystemAudioActive = false → s.systemOnerror error = []) ∧
    (s.systemRecognition = none → s.systemOnerror error = []) ∧
    (∀ e : Engine, s.systemRecognition = some e → e.stopRaises = true →
      s.systemOnerror error = []) ∧
    (∀ e : Engine, a.recognition = some e → e.stopRaises = false →
      a.onerror noSpeech = [{ delayMs := 1000, callback := .captureRestart }]) ∧
    (error ≠ noSpeech → a.onerror error = []) ∧
    (a.recognition = none → a.onerror error = []) ∧
    (∀ e : Engine, a.recognition = some e → e.stopRaises = true → a.onerror error = []) := by
  refine ⟨?_, ?_, ?_, ?_, ?_, ?_, ?_, ?_, ?_, ?_, ?_⟩
  · intro h
    simp [TranscriptionService.onerror, h]
  · intro h
    simp [TranscriptionService.onerror, h]
  · intro e he hs ha
    simp [TranscriptionService.systemOnerror, TranscriptionService.restartSystemRecognition,
      he, hs, ha]
  · intro h
    simp [TranscriptionService.systemOnerror, h]
  · intro h
    simp [TranscriptionService.systemOnerror, h]
  · intro h
    by_cases h1 : error = noSpeech <;>
      simp [TranscriptionService.systemOnerror, TranscriptionService.restartSystemRecognition,
        h, h1]
  · intro e he hs
    by_cases h1 : error = noSpeech <;> cases h2 : s.isSystemAudioActive <;>
      simp [TranscriptionService.systemOnerror, TranscriptionService.restartSystemRecognition,
        he, hs, h1, h2]
  · intro e he hs
    simp [SystemAudioService.onerror, SystemAudioService.restartRecognition, he, hs]
  · intro h
    simp [SystemAudioService.onerror, h]
  · intro h
    by_cases h1 : error = noSpeech <;>
      simp [SystemAudioService.onerror, SystemAudioService.restartRecognition, h, h1]
  · intro e he hs
    by_cases h1 : error = noSpeech <;>
      simp [SystemAudioService.onerror, SystemAudioService.restartRecognition, he, hs, h1]

/-- C12 (amended) at a recording service as the shipped flow leaves it (no
system engine), at services with an active system-audio session, and at
services whose system-audio engine raises on `stop()`. -/
theorem C12_error_restart_policy_witness :
    recordingService.systemRecognition = none ∧
    recordingService.onerror noSpeech = [{ delayMs := 300, callback := .micRestart }] ∧
    recordingService.onerror "network".toList =
      [{ delayMs := 300, callback := .micRestart }] ∧
    (TranscriptionService.new quietEngine).onerror noSpeech = [] ∧
    recordingService.systemOnerror noSpeech = [] ∧
    systemActiveService.systemOnerror noSpeech =
      [{ delayMs := 1000, callback := .systemRestart }] ∧
    systemActiveService.systemOnerror "network".toList = [] ∧
    stuckSystemService.systemOnerror noSpeech = [] ∧
    capturingService.onerror noSpeech = [{ delayMs := 1000, callback := .captureRestart }] ∧
    capturingService.onerror "network".toList = [] ∧
    engineLessCapture.onerror noSpeech = [] ∧
    stuckCaptureService.onerror noSpeech = [] :=
  ⟨rfl,
   (C12_error_restart_policy recordingService capturingService noSpeech).1 rfl,
   (C12_error_restart_policy recordingService capturingService "network".toList).1 rfl,
   (C12_error_restart_policy (TranscriptionService.new quietEngine) capturingService
     noSpeech).2.1 rfl,
   (C12_error_restart_policy recordingService capturingService noSpeech).2.2.2.2.2.1 rfl,
   (C12_error_restart_policy systemActiveService capturingService noSpeech).2.2.1
     quietEngine rfl rfl rfl,
   (C12_error_restart_policy systemActiveService capturingService
     "network".toList).2.2.2.1 (by decide),
   (C12_error_restart_policy stuckSystemService capturingService noSpeech).2.2.2.2.2.2.1
     { startRaises := false, stopRaises := true } rfl rfl,
   (C12_error_restart_policy systemActiveService capturingService noSpeech).2.2.2.2.2.2.2.1
     quietEngine rfl rfl,
   (C12_error_restart_policy systemActiveService capturingService
     "network".toList).2.2.2.2.2.2.2.2.1 (by decide),
   (C12_error_restart_policy systemActiveService engineLessCapture
     noSpeech).2.2.2.2.2.2.2.2.2.1 rfl,
   (C12_error_restart_policy systemActiveService stuckCaptureService
     noSpeech).2.2.2.2.2.2.2.2.2.2 { startRaises := false, stopRaises := true } rfl rfl⟩

/-- C13 (code defect).  An end event of the engine of a capturing
`SystemAudioService` schedules nothing, because that engine has no `onend`
handler; the microphone engine and `systemRecognition` schedule their restart
after 100 ms. -/
theorem C13_capture_end_schedules_no_restart :
    capturingService.isCapturing = true ∧
    capturingService.onend = [] ∧
    (freshRecording.step .captureEnd).pending = [] ∧
    recordingService.onend = [{ delayMs := 100, callback := .micRestart }] ∧
    systemActiveService.systemOnend = [{ delayMs := 100, callback := .systemEndRestart }] := by
  decide

/-- C14 (code defect).  A restart scheduled by an end event before
`stopRecording` is still pending after it and, when it expires, calls `start()`
on the microphone engine although `isRecording` is false. -/
theorem C14_pending_restart_fires_after_stop :
    (freshRecording.run [.micEnd, .stopRecording exampleClock]).service.isRecording = false ∧
    (freshRecording.run [.micEnd, .stopRecording exampleClock]).pending =
      [{ delayMs := 100, callback := .micRestart }] ∧
    (freshRecording.run [.micEnd, .stopRecording exampleClock]).issued = [] ∧
    (freshRecording.run [.micEnd, .stopRecording exampleClock, .fire 0]).issued =
      [.microphone] := by
  decide

/-- C15 (code defect).  The callbacks set by `restartRecognition` and
`restartSystemRecognition` call `start()` outside any `try`: after a
`no-speech` error followed by `stopCapture`, the expiring timer throws a
`TypeError` out of the callback, and a `start()` that raises leaves the
callback of `restartSystemRecognition` as well. -/
theorem C15_delayed_restart_exception_escapes :
    (freshRecording.run [.captureError noSpeech, .stopCapture]).pending =
      [{ delayMs := 1000, callback := .captureRestart }] ∧
    ((freshRecording.run [.captureError noSpeech, .stopCapture]).fire 0).2 =
      .threw .typeError ∧
    ((({ freshRecording with service := failingSystemService } : Recording).run
        [.restartSystemRecognition]).fire 0).2 = .threw .engineStart := by
  decide

/-- C16 (code defect).  On a capturing service whose callback is the display
closure, `recoverFromError` with a successful re-capture leaves the service
capturing with `onTranscriptUpdate` null: a later result event is delivered to
no callback. -/
theorem C16_recovery_loses_fragment_callback :
    capturingService.isCapturing = true ∧
    capturingService.onTranscriptUpdate = some .display ∧
    (capturingService.recoverFromError workingCapture).2.2 = .returned () ∧
    (capturingService.recoverFromError workingCapture).1.isCapturing = true ∧
    (capturingService.recoverFromError workingCapture).1.onTranscriptUpdate = none ∧
    (capturingService.recoverFromError workingCapture).1.onresult worldFinalEvent = none := by
  decide

/-- C17 (code defect).  When the re-capture inside `recoverFromError` fails at
`recognition.start()` and the cleanup's `recognition.stop()` raises too,
`recoverFromError` returns without throwing but leaves `stream`, `recognition`
and `audioContext` set, with no track stopped by the cleanup. -/
theorem C17_failed_recovery_keeps_resources :
    (capturingService.recoverFromError brokenEngineCapture).2.2 = .returned () ∧
    (capturingService.recoverFromError brokenEngineCapture).1.isCapturing = false ∧
    (capturingService.recoverFromError brokenEngineCapture).1.stream =
      some { tracks := [0] } ∧
    (capturingService.recoverFromError brokenEngineCapture).1.recognition =
      some { startRaises := true, stopRaises := true } ∧
    (capturingService.recoverFromError brokenEngineCapture).1.audioContext = true := by
  decide

/-- C18.  Every operation of a recording other than `startRecording` (result,
error and end events of the engines, `handleSystemAudioTranscript`,
`restartSystemRecognition`, `recoverFromError`, `stopCapture`, an expiring
restart timer, `stopRecording`) leaves the previous transcript at the start of
the new one, and so does every sequence of such operations. -/
theorem C18_transcript_only_grows (w : Recording) (op : Operation) (ops : List Operation) :
    w.service.transcript <+: (w.step op).service.transcript ∧
    w.service.transcript <+: (w.run ops).service.transcript :=
  ⟨step_grows w op, run_grows ops w⟩

/-- C19 (code defect).  On a capturing service whose engine raises on `stop()`,
`stopCapture` returns false with no track stopped and `stream` still set; the
same holds after a `startCapture` that fails at `recognition.start()` with an
engine that raises on `stop()`. -/
theorem C19_stop_exception_keeps_stream :
    stuckCaptureService.stream = some { tracks := [0] } ∧
    stuckCaptureService.stopCapture.2.2 = false ∧
    stuckCaptureService.stopCapture.2.1 = [] ∧
    stuckCaptureService.stopCapture.1.stream = some { tracks := [0] } ∧
    (SystemAudioService.new.startCapture brokenEngineCapture (some .display)).2.2 =
      .threw .engineStart ∧
    (SystemAudioService.new.startCapture brokenEngineCapture (some .display)).2.1 = [] ∧
    (SystemAudioService.new.startCapture brokenEngineCapture (some .display)).1.stream =
      some { tracks := [0] } := by
  decide

/-- C20 (as stated, refuted).  Without an API key `generateSummary` throws
`Gemini API key not set`; no record is returned. -/
theorem C20_missing_key_throws :
    generateSummary none .rejected "2026-01-01T00:00:00.000Z".toList
        "[12:00:01] [Me] hello".toList = .threw .apiKeyNotSet ∧
    generateSummary (some []) .rejected "2026-01-01T00:00:00.000Z".toList
        "[12:00:01] [Me] hello".toList = .threw .apiKeyNotSet := by
  decide

/-- C20 (amended).  With an API key set, for every transcript and every outcome
of the request, `generateSummary` returns a record whose `fullTranscript` is the
input transcript and whose `timestamp` is the time read; when the request fails
(network error, non-OK response, unreadable or malformed body) its summary is
exactly `Summary generation failed. Full transcript is preserved.`. -/
theorem C20_summary_failure_returns_fallback (key : Str) (outcome : FetchOutcome)
    (now transcript : Str) (hkey : truthy key = true) :
    ∃ r : SummaryData,
      generateSummary (some key) outcome now transcript = .returned r ∧
      r.fullTranscript = transcript ∧ r.timestamp = now ∧
      (outcome.failed = true → r.summary = summaryFailed) := by
  unfold generateSummary
  simp only [hkey, Bool.not_true, Bool.false_eq_true, if_false]
  cases outcome with
  | rejected => exact ⟨_, rfl, rfl, rfl, fun _ => rfl⟩
  | notOk => exact ⟨_, rfl, rfl, rfl, fun _ => rfl⟩
  | unreadable => exact ⟨_, rfl, rfl, rfl, fun _ => rfl⟩
  | body data =>
    simp only
    cases hr : readSummary data with
    | none => exact ⟨_, rfl, rfl, rfl, fun _ => rfl⟩
    | some summary =>
      refine ⟨_, rfl, rfl, rfl, ?_⟩
      intro hf
      have h1 : firstPart data = none := by
        simpa [FetchOutcome.failed, Option.isNone_iff_eq_none] using hf
      rw [← readSummary_none_iff, hr] at h1
      exact absurd h1 (by simp)

/-- C20 (amended) at a body without candidates. -/
theorem C20_summary_failure_returns_fallback_witness :
    ∃ r : SummaryData,
      generateSummary (some "key".toList) (.body { candidates := some [] })
          "2026-01-01T00:00:00.000Z".toList "[12:00:01] [Me] hello".toList = .returned r ∧
      r.fullTranscript = "[12:00:01] [Me] hello".toList ∧
      r.summary = summaryFailed := by
  obtain ⟨r, h1, h2, _, h4⟩ := C20_summary_failure_returns_fallback "key".toList
    (.body { candidates := some [] }) "2026-01-01T00:00:00.000Z".toList
    "[12:00:01] [Me] hello".toList (by decide)
  exact ⟨r, h1, h2, h4 (by decide)⟩

/-! ## Lemmas on the transcript display -/

theorem truthy_trim_and (f : Str) : (truthy f && truthy (trim f)) = truthy (trim f) := by
  cases f with
  | nil => rfl
  | cons c cs => simp [truthy]

theorem finalLines_append (a b : List DisplayLine) :
    finalLines (a ++ b) = finalLines a ++ finalLines b := by
  simp [finalLines]

theorem finalLines_setFirstInterim (text : Str) (area : List DisplayLine) :
    finalLines (setFirstInterim text area) = finalLines area := by
  induction area with
  | nil => rfl
  | cons line rest ih =>
    cases line with
    | interimLine ts t => simp [setFirstInterim, finalLines, DisplayLine.isInterim]
    | finalLine ts t =>
      simp only [setFirstInterim, finalLines, List.filter_cons, DisplayLine.isInterim]
      simpa [finalLines] using ih

theorem finalLines_removeFirstInterim (area : List DisplayLine) :
    finalLines (removeFirstInterim area) = finalLines area := by
  induction area with
  | nil => rfl
  | cons line rest ih =>
    cases line with
    | interimLine ts t => simp [removeFirstInterim, finalLines, DisplayLine.isInterim]
    | finalLine ts t =>
      simp only [removeFirstInterim, finalLines, List.filter_cons, DisplayLine.isInterim]
      simpa [finalLines] using ih

theorem any_finalText_iff (area : List DisplayLine) (t : Str) :
    area.any (fun line => decide (line.finalText = some t)) = true ↔ t ∈ finalTexts area := by
  rw [List.any_eq_true]
  constructor
  · rintro ⟨line, hl, he⟩
    have he2 : line.finalText = some t := by simpa using he
    unfold finalTexts
    rw [List.mem_filterMap]
    refine ⟨line, ?_, he2⟩
    unfold finalLines
    rw [List.mem_filter]
    refine ⟨hl, ?_⟩
    cases line with
    | interimLine ts x => simp [DisplayLine.finalText] at he2
    | finalLine ts x => rfl
  · intro h
    unfold finalTexts at h
    obtain ⟨line, hl, he⟩ := List.mem_filterMap.1 h
    unfold finalLines at hl
    exact ⟨line, (List.mem_filter.1 hl).1, by simpa using he⟩

theorem any_finalText_eq (area : List DisplayLine) (t : Str) :
    area.any (fun line => decide (line.finalText = some t)) = decide (t ∈ finalTexts area) := by
  rw [Bool.eq_iff_iff, decide_eq_true_eq]
  exact any_finalText_iff area t

theorem update_shape (interimNow finalNow : Str) (area : List DisplayLine)
    (finalTranscript interimTranscript : Str) :
    ∃ shown : List DisplayLine,
      finalLines shown = finalLines area ∧
      updateTranscriptDisplay interimNow finalNow area finalTranscript interimTranscript =
        shown ++ (if addsFinalLine area finalTranscript then
          [.finalLine finalNow (trim finalTranscript)] else []) := by
  have hshown : ∃ shown : List DisplayLine, finalLines shown = finalLines area ∧
      shown = (if truthy interimTranscript then
        setFirstInterim interimTranscript
          (if area.any DisplayLine.isInterim then area
           else area ++ [.interimLine interimNow []])
        else removeFirstInterim area) := by
    refine ⟨_, ?_, rfl⟩
    cases truthy interimTranscript with
    | false => simpa using finalLines_removeFirstInterim area
    | true =>
      simp only [if_true]
      rw [finalLines_setFirstInterim]
      cases area.any DisplayLine.isInterim with
      | true => rfl
      | false =>
        simp only [Bool.false_eq_true, if_false]
        rw [finalLines_append]
        simp [finalLines, DisplayLine.isInterim]
  obtain ⟨shown, hfl, hdef⟩ := hshown
  refine ⟨shown, hfl, ?_⟩
  unfold updateTranscriptDisplay
  simp only [← hdef, truthy_trim_and, any_finalText_eq, addsFinalLine]
  have htexts : finalTexts shown = finalTexts area := by
    unfold finalTexts
    rw [hfl]
  rw [htexts]
  by_cases hm : trim finalTranscript ∈ finalTexts area <;>
    by_cases h1 : truthy (trim finalTranscript) = true <;> simp [hm, h1]

theorem finalTexts_update (interimNow finalNow : Str) (area : List DisplayLine)
    (finalTranscript interimTranscript : Str) :
    finalTexts (updateTranscriptDisplay interimNow finalNow area finalTranscript
        interimTranscript) =
      finalTexts area ++
        (if addsFinalLine area finalTranscript then [trim finalTranscript] else []) := by
  obtain ⟨shown, hfl, heq⟩ := update_shape interimNow finalNow area finalTranscript
    interimTranscript
  rw [heq]
  unfold finalTexts
  rw [finalLines_append, hfl]
  cases addsFinalLine area finalTranscript <;>
    simp [finalLines, DisplayLine.isInterim, DisplayLine.finalText]

theorem nodup_update (interimNow finalNow : Str) (area : List DisplayLine)
    (finalTranscript interimTranscript : Str) (h : (finalTexts area).Nodup) :
    (finalTexts (updateTranscriptDisplay interimNow finalNow area finalTranscript
        interimTranscript)).Nodup := by
  rw [finalTexts_update]
  cases hadd : addsFinalLine area finalTranscript with
  | false => simpa using h
  | true =>
    simp only [if_true]
    have hnot : trim finalTranscript ∉ finalTexts area := by
      unfold addsFinalLine at hadd
      simp only [Bool.and_eq_true, decide_eq_true_eq] at hadd
      exact hadd.2
    rw [List.nodup_append]
    refine ⟨h, List.nodup_singleton _, ?_⟩
    intro x hx hx2
    have : x = trim finalTranscript := by simpa using hx2
    exact hnot (this ▸ hx)

theorem nodup_updateAll (calls : List DisplayCall) :
    ∀ area : List DisplayLine, (finalTexts area).Nodup →
      (finalTexts (updateAll area calls)).Nodup := by
  induction calls with
  | nil => intro area h; exact h
  | cons call rest ih =>
    intro area h
    exact ih _ (nodup_update call.interimNow call.finalNow area call.finalTranscript
      call.interimTranscript h)

/-! ## Lemmas on the save flow -/

theorem saveRecording_first_save_succeeds (summaryData : SummaryData)
    (first fallback : SaveCall) (fallbackNow : Str) (stored : List MeetingData)
    (meetingName transcript : Str) (hname : truthy meetingName = true)
    (hwrite : first.env.writeOk = true) (hdownload : first.env.downloadOk = true) :
    SidePanelController.saveRecording (.returned summaryData) first fallback fallbackNow stored
        meetingName transcript =
      (StorageService.getSavedMeetings first.env.readOk stored ++
        [meetingDataOf first.id first.timestamp meetingName transcript summaryData.summary],
       []) := by
  simp [SidePanelController.saveRecording, SidePanelController.saveMeeting,
    StorageService.saveMeeting, hname, hwrite, hdownload]

/-! ## The claims, concluded -/

/-- C21.  Starting from an empty transcript area, after every sequence of
`updateTranscriptDisplay` calls the displayed final lines have pairwise distinct
text.  On every area, one call keeps the final lines it finds, in their order,
and puts one new final line at the very end exactly when the trimmed final
fragment is not empty and is not the text of a displayed final line; otherwise
it adds no final line. -/
theorem C21_displayed_final_lines_distinct (calls : List DisplayCall)
    (area : List DisplayLine) (call : DisplayCall) :
    (finalTexts (updateAll [] calls)).Nodup ∧
    (∃ shown : List DisplayLine,
      finalLines shown = finalLines area ∧
      updateTranscriptDisplay call.interimNow call.finalNow area call.finalTranscript
          call.interimTranscript =
        shown ++ (if addsFinalLine area call.finalTranscript then
          [.finalLine call.finalNow (trim call.finalTranscript)] else [])) ∧
    finalLines (updateTranscriptDisplay call.interimNow call.finalNow area
        call.finalTranscript call.interimTranscript) =
      finalLines area ++ (if addsFinalLine area call.finalTranscript then
        [.finalLine call.finalNow (trim call.finalTranscript)] else []) ∧
    updateAll [] displayCalls =
      [.finalLine "12:00:01".toList "[Me] hello".toList,
       .finalLine "12:00:04".toList "[Me] world".toList] := by
  refine ⟨nodup_updateAll calls [] (by simp [finalTexts, finalLines]),
    update_shape _ _ _ _ _, ?_, by decide⟩
  obtain ⟨shown, hfl, heq⟩ := update_shape call.interimNow call.finalNow area
    call.finalTranscript call.interimTranscript
  rw [heq, finalLines_append, hfl]
  cases addsFinalLine area call.finalTranscript <;> simp [finalLines, DisplayLine.isInterim]

/-- C22 (code defect).  When `saveMeeting` has written the record and its export
then fails, the `catch` branch of `stopRecording` saves again: one
`stopRecording` leaves two records of the meeting in the store, whether the
second export fails too (an alert is shown) or succeeds. -/
theorem C22_failed_export_stores_meeting_twice :
    greetingSummary =
      .returned { summary := "Greeting.".toList, fullTranscript := helloTranscript,
                  timestamp := "2026-01-01T10:00:00.000Z".toList } ∧
    SidePanelController.saveRecording greetingSummary firstSave fallbackSave
        "2026-01-01T10:00:00.050Z".toList [] "standup".toList helloTranscript =
      ([{ id := "1767261600000".toList, name := "standup".toList,
          timestamp := "2026-01-01T10:00:00.000Z".toList, summary := "Greeting.".toList,
          fullTranscript := helloTranscript },
        { id := "1767261600050".toList, name := "standup".toList,
          timestamp := "2026-01-01T10:00:00.050Z".toList, summary := summaryFailed,
          fullTranscript := helloTranscript }],
       ["Failed to save meeting. Please try again.".toList]) ∧
    (SidePanelController.saveRecording greetingSummary firstSave fallbackSaveWorking
        "2026-01-01T10:00:00.050Z".toList [] "standup".toList helloTranscript).1.length = 2 ∧
    (SidePanelController.saveRecording greetingSummary firstSave fallbackSaveWorking
        "2026-01-01T10:00:00.050Z".toList [] "standup".toList helloTranscript).2 = [] := by
  decide

end MeetBot
